import Mathlib

/-!
# LabSound `AudioContext`: graph lifecycle bookkeeping

A shallow embedding of `src/Modules/webaudio/AudioContext.cpp`.

* A node is identified by its handle (`Node`); an empty `shared_ptr` is `none`.
* The context is a record of the member variables the functions read and write.
* `ASSERT` is modelled as enabled: a failing assertion stops the call and the
  outcome records which assertion tripped and the state at that point.
  Dereferencing an empty handle stops the call in the same way.
* The mutex `automaticSourcesMutex` only serialises the bodies; each function is
  modelled as one atomic step.
* Calls into `AudioNode`, `AudioSummingJunction` and the destination node whose
  bodies live in other files are recorded, in call order, in `externalCalls`.
* The `std::set` of automatic pull nodes is the list of its elements in
  iteration order; the do-while loop of `clear` carries a bound on its passes.
* A node's `m_connectionRefCount` is a 32-bit machine `int`: increments and
  decrements wrap modulo 2^32.
-/

namespace LabSound

/-- Handle of an `AudioNode` (the identity of the pointee). -/
abbrev Node := Nat

/-- An input port `node->input(index)`. -/
structure AudioNodeInput where
  node : Node
  index : Nat
deriving DecidableEq, Repr

/-- An output port `node->output(index)`. -/
structure AudioNodeOutput where
  node : Node
  index : Nat
deriving DecidableEq, Repr

/-- The port connections: each entry says that an output feeds an input. -/
abbrev Wiring := List (AudioNodeInput × AudioNodeOutput)

/-- Modelled from the spec: `AudioNodeInput::connect` is not among the source files.
Port wiring is a set of directed connections between an output port and an input
port; connecting an already-connected pair is idempotent. Empty handles are ignored. -/
def AudioNodeInput.connect (w : Wiring) : Option AudioNodeInput → Option AudioNodeOutput → Wiring
  | some i, some o => if (i, o) ∈ w then w else w ++ [(i, o)]
  | _, _ => w

/-- Modelled from the spec: `AudioNodeInput::disconnect` is not among the source files.
It tears down the specific port wiring; disconnecting a non-existent edge is
silently ignored. -/
def AudioNodeInput.disconnect (w : Wiring) : Option AudioNodeInput → Option AudioNodeOutput → Wiring
  | some i, some o => w.filter (fun e => decide (e ≠ (i, o)))
  | _, _ => w

/-- Modelled from the spec: `AudioNodeOutput::disconnectAll` is not among the source
files. It removes every connection of the named output port. -/
def AudioNodeOutput.disconnectAll (w : Wiring) : Option AudioNodeOutput → Wiring
  | some o => w.filter (fun e => decide (e.2 ≠ o))
  | none => w

/-- Modelled from the spec: `AudioNode::disconnect(context, index, ec)` is not among the
source files. "Disconnect all" removes all inbound connections to the given node's
designated input. -/
def AudioNode.disconnect (w : Wiring) (n : Node) (index : Nat) : Wiring :=
  w.filter (fun e => decide (e.1 ≠ (⟨n, index⟩ : AudioNodeInput)))

/-- The value a 32-bit two's-complement `int` holds when the arithmetic result is `x`:
`x` reduced modulo 2^32 into the range from -2147483648 to 2147483647. -/
def wrapInt (x : Int) : Int :=
  (x + 2147483648) % 4294967296 - 2147483648

/-- A C `int`. The counter `m_connectionRefCount` is the `int` that
`atomicIncrement(int volatile*)` and `atomicDecrement(int volatile*)` of `wtf/Atomics.h`
work on. -/
abbrev CInt : Type :=
  { x : Int // -2147483648 ≤ x ∧ x < 2147483648 }

/-- Storing an arithmetic result in a C `int`. -/
def CInt.ofInt (x : Int) : CInt :=
  ⟨wrapInt x, by unfold wrapInt; omega⟩

/-- A `ContextGraphLock`; `context` tells whether `g.context()` is non-null. -/
structure ContextGraphLock where
  context : Bool
deriving DecidableEq, Repr

/-- A `ContextRenderLock`; `context` tells whether `r.context()` is non-null. -/
structure ContextRenderLock where
  context : Bool
deriving DecidableEq, Repr

/-- The template `PendingConnection<AudioNodeInput, AudioNodeOutput>`: fields in
constructor order `(from, to, connect)`. -/
structure PendingConnection where
  from_ : Option AudioNodeInput
  to_ : Option AudioNodeOutput
  connect : Bool
deriving DecidableEq, Repr

/-- The template `PendingConnection<AudioNode, AudioNode>`: fields in constructor order
`(from, to, connect)`. -/
structure PendingNodeConnection where
  from_ : Option Node
  to_ : Option Node
  connect : Bool
deriving DecidableEq, Repr

/-- Calls whose bodies are outside `AudioContext.cpp`, recorded in call order. -/
inductive ExternalCall where
  | enableOutputsIfNecessary (n : Node)
  | disableOutputsIfNecessary (n : Node)
  | handleDirtyAudioSummingJunctions
  | processIfNecessary (n : Node)
  | destinationInitialize (d : Node)
  | destinationStartRendering (d : Node)
  | destinationUninitialize (d : Node)
deriving DecidableEq, Repr

/-- The member variables of `AudioContext` used by the graph lifecycle code, the wiring
held by the ports, and each node's `m_connectionRefCount` and `hasFinished()`. -/
structure AudioContext where
  wiring : Wiring
  connectionRefCount : Node → CInt
  hasFinished : Node → Bool
  m_referencedNodes : List Node
  m_finishedNodes : List Node
  m_nodesMarkedForDeletion : List Node
  m_nodesToDelete : List Node
  m_automaticPullNodes : List Node
  m_renderingAutomaticPullNodes : List Node
  m_automaticPullNodesNeedUpdating : Bool
  automaticSources : List Node
  pendingConnections : List PendingConnection
  pendingNodeConnections : List PendingNodeConnection
  m_isInitialized : Bool
  m_isAudioThreadFinished : Bool
  m_isStopScheduled : Bool
  m_isDeletionScheduled : Bool
  m_isOfflineContext : Bool
  m_destinationNode : Option Node
  externalCalls : List ExternalCall

/-- Modelled from the spec: the default member initialisers are in `AudioContext.h`, which
is not among the source files. A context right after construction has every container
empty, every flag false and every node with zero connections. -/
def AudioContext.fresh ( offline : Bool) : AudioContext where
  wiring := []
  connectionRefCount := fun _ => CInt.ofInt 0
  hasFinished := fun _ => false
  m_referencedNodes := []
  m_finishedNodes := []
  m_nodesMarkedForDeletion := []
  m_nodesToDelete := []
  m_automaticPullNodes := []
  m_renderingAutomaticPullNodes := []
  m_automaticPullNodesNeedUpdating := false
  automaticSources := []
  pendingConnections := []
  pendingNodeConnections := []
  m_isInitialized := false
  m_isAudioThreadFinished := false
  m_isStopScheduled := false
  m_isDeletionScheduled := false
  m_isOfflineContext := offline
  m_destinationNode := none
  externalCalls := []

/-- Why a call stopped early. -/
inductive Fault where
  | nullDereference
  | assertRenderLockContext
  | assertGraphLockContext
  | assertNodeToFinishNotReferenced
  | assertDeleteUnreferencedNode
  | assertIsGood
  | assertAudioThreadNotFinished
deriving DecidableEq, Repr

/-- What a call produced: it ran to its end, or stopped at a fault with the state
reached so far. -/
inductive Outcome where
  | done (s : AudioContext)
  | fault (f : Fault) (s : AudioContext)

/-- The state a call left behind. -/
def Outcome.state : Outcome → AudioContext
  | Outcome.done s => s
  | Outcome.fault _ s => s

/-- The fault a call stopped at, if any. -/
def Outcome.fault? : Outcome → Option Fault
  | Outcome.done _ => none
  | Outcome.fault f _ => some f

/-- Sequencing: the rest of a function body runs only when the first part finished. -/
def Outcome.andThen (o : Outcome) (k : AudioContext → Outcome) : Outcome :=
  match o with
  | Outcome.done s => k s
  | Outcome.fault f s => Outcome.fault f s

/-- The helper `atomicIncrement(&n->m_connectionRefCount)`: the machine `int` of node `n`
goes up by one and wraps from 2147483647 to -2147483648. -/
def atomicIncrement (s : AudioContext) (n : Node) : AudioContext :=
  { s with connectionRefCount := fun m =>
      if m = n then CInt.ofInt ((s.connectionRefCount m).val + 1) else s.connectionRefCount m }

/-- The helper `atomicDecrement(&n->m_connectionRefCount)`: the machine `int` of node `n`
goes down by one and wraps from -2147483648 to 2147483647. -/
def atomicDecrement (s : AudioContext) (n : Node) : AudioContext :=
  { s with connectionRefCount := fun m =>
      if m = n then CInt.ofInt ((s.connectionRefCount m).val - 1) else s.connectionRefCount m }

/-- Record a call whose body is outside this file. -/
def callExternal (s : AudioContext) (c : ExternalCall) : AudioContext :=
  { s with externalCalls := s.externalCalls ++ [c] }

/-- The method `AudioContext::notifyNodeFinishedProcessing`: the first referenced entry
equal to `node` is pushed onto `m_finishedNodes`. -/
def AudioContext.notifyNodeFinishedProcessing (r : ContextRenderLock) (s : AudioContext)
    (node : Node) : Outcome :=
  if r.context = false then Outcome.fault Fault.assertRenderLockContext s
  else if node ∈ s.m_referencedNodes then
    Outcome.done { s with m_finishedNodes := s.m_finishedNodes ++ [node] }
  else Outcome.fault Fault.assertNodeToFinishNotReferenced s

/-- The method `AudioContext::referenceSourceNode`. -/
def AudioContext.referenceSourceNode (_g : ContextGraphLock) (s : AudioContext)
    (node : Node) : AudioContext :=
  { s with m_referencedNodes := s.m_referencedNodes ++ [node] }

/-- The method `AudioContext::dereferenceSourceNode`: erases the first entry equal to
`node`, if there is one. -/
def AudioContext.dereferenceSourceNode (g : ContextGraphLock) (s : AudioContext)
    (node : Node) : Outcome :=
  if g.context = false then Outcome.fault Fault.assertGraphLockContext s
  else Outcome.done { s with m_referencedNodes := s.m_referencedNodes.erase node }

/-- The loop of `AudioContext::derefFinishedSourceNodes` over `m_finishedNodes[i]`. -/
def derefFinishedLoop (g : ContextGraphLock) : AudioContext → List Node → Outcome
  | s, [] => Outcome.done s
  | s, n :: rest =>
    (AudioContext.dereferenceSourceNode g s n).andThen (fun s1 => derefFinishedLoop g s1 rest)

/-- The method `AudioContext::derefFinishedSourceNodes`. -/
def AudioContext.derefFinishedSourceNodes (g : ContextGraphLock) (s : AudioContext) : Outcome :=
  if g.context = false then Outcome.fault Fault.assertGraphLockContext s
  else (derefFinishedLoop g s s.m_finishedNodes).andThen
    (fun s1 => Outcome.done { s1 with m_finishedNodes := [] })

/-- The method `AudioContext::holdSourceNodeUntilFinished`. -/
def AudioContext.holdSourceNodeUntilFinished (s : AudioContext) (sn : Node) : AudioContext :=
  { s with automaticSources := s.automaticSources ++ [sn] }

/-- The loop of `AudioContext::handleAutomaticSources`. When the element under the
iterator has finished it is erased and the iterator is set to the element after it; if
that is the end the loop breaks, otherwise the loop increment `++i` steps over that
element without testing it. -/
def handleAutomaticSourcesLoop (hasFinished : Node → Bool) : List Node → List Node
  | [] => []
  | [x] => if hasFinished x then [] else [x]
  | x :: y :: rest =>
    if hasFinished x then y :: handleAutomaticSourcesLoop hasFinished rest
    else x :: handleAutomaticSourcesLoop hasFinished (y :: rest)

/-- The method `AudioContext::handleAutomaticSources`. -/
def AudioContext.handleAutomaticSources (s : AudioContext) : AudioContext :=
  { s with automaticSources := handleAutomaticSourcesLoop s.hasFinished s.automaticSources }

/-- The method `AudioContext::connect(shared_ptr<AudioNode> from, shared_ptr<AudioNode> to)`. -/
def AudioContext.connect (s : AudioContext) (from_ to_ : Node) : AudioContext :=
  { s with pendingNodeConnections := s.pendingNodeConnections ++ [⟨some from_, some to_, true⟩] }

/-- The method `AudioContext::connect(shared_ptr<AudioNodeInput> fromInput,
shared_ptr<AudioNodeOutput> toOutput)`. -/
def AudioContext.connectInput (s : AudioContext) (fromInput : AudioNodeInput)
    (toOutput : AudioNodeOutput) : AudioContext :=
  { s with pendingConnections := s.pendingConnections ++ [⟨some fromInput, some toOutput, true⟩] }

/-- The method `AudioContext::disconnect(shared_ptr<AudioNode> from, shared_ptr<AudioNode> to)`. -/
def AudioContext.disconnect (s : AudioContext) (from_ to_ : Node) : AudioContext :=
  { s with pendingNodeConnections := s.pendingNodeConnections ++ [⟨some from_, some to_, false⟩] }

/-- The method `AudioContext::disconnect(shared_ptr<AudioNode> from)`: the target handle
stored in the request is the empty `shared_ptr`. -/
def AudioContext.disconnectAll (s : AudioContext) (from_ : Node) : AudioContext :=
  { s with pendingNodeConnections := s.pendingNodeConnections ++ [⟨some from_, none, false⟩] }

/-- The method `AudioContext::disconnect(shared_ptr<AudioNodeOutput> toOutput)`: the input
handle stored in the request is the empty `shared_ptr`. -/
def AudioContext.disconnectOutput (s : AudioContext) (toOutput : AudioNodeOutput) : AudioContext :=
  { s with pendingConnections := s.pendingConnections ++ [⟨none, some toOutput, false⟩] }

/-- Body of the first loop of `AudioContext::update`, for one port-level request. -/
def updatePendingConnection (s : AudioContext) (i : PendingConnection) : AudioContext :=
  if i.connect then { s with wiring := AudioNodeInput.connect s.wiring i.from_ i.to_ }
  else { s with wiring := AudioNodeOutput.disconnectAll s.wiring i.to_ }

/-- Body of the second loop of `AudioContext::update`, for one node-level request.
Every `i.from->` and `i.to->` on an empty handle is a null dereference. -/
def updatePendingNodeConnection (g : ContextGraphLock) (s : AudioContext)
    (i : PendingNodeConnection) : Outcome :=
  if i.connect then
    match i.to_, i.from_ with
    | some t, some f =>
      let s1 := { s with wiring :=
        AudioNodeInput.connect s.wiring (some ⟨t, 0⟩) (some ⟨f, 0⟩) }
      let s2 := AudioContext.referenceSourceNode g s1 f
      let s3 := AudioContext.referenceSourceNode g s2 t
      let s4 := atomicIncrement s3 f
      let s5 := atomicIncrement s4 t
      let s6 := callExternal s5 (ExternalCall.enableOutputsIfNecessary f)
      Outcome.done (callExternal s6 (ExternalCall.enableOutputsIfNecessary t))
    | _, _ => Outcome.fault Fault.nullDereference s
  else
    match i.from_ with
    | none =>
      match i.to_ with
      | none => Outcome.fault Fault.nullDereference s
      | some t =>
        let s1 := atomicDecrement s t
        let s2 := { s1 with wiring := AudioNode.disconnect s1.wiring t 0 }
        Outcome.done (callExternal s2 (ExternalCall.disableOutputsIfNecessary t))
    | some f =>
      let s1 := atomicDecrement s f
      match i.to_ with
      | none => Outcome.fault Fault.nullDereference s1
      | some t =>
        let s2 := atomicDecrement s1 t
        let s3 := { s2 with wiring :=
          AudioNodeInput.disconnect s2.wiring (some ⟨f, 0⟩) (some ⟨t, 0⟩) }
        (AudioContext.dereferenceSourceNode g s3 f).andThen (fun s4 =>
          (AudioContext.dereferenceSourceNode g s4 t).andThen (fun s5 =>
            let s6 := callExternal s5 (ExternalCall.disableOutputsIfNecessary f)
            Outcome.done (callExternal s6 (ExternalCall.disableOutputsIfNecessary t))))

/-- The second loop of `AudioContext::update`, in queue order. -/
def updatePendingNodeConnections (g : ContextGraphLock) :
    AudioContext → List PendingNodeConnection → Outcome
  | s, [] => Outcome.done s
  | s, i :: rest =>
    (updatePendingNodeConnection g s i).andThen (fun s1 => updatePendingNodeConnections g s1 rest)

/-- The method `AudioContext::update`: all port-level requests, then all node-level
requests, then `derefFinishedSourceNodes`. -/
def AudioContext.update (g : ContextGraphLock) (s : AudioContext) : Outcome :=
  let s1 := s.pendingConnections.foldl updatePendingConnection s
  let s2 := { s1 with pendingConnections := [] }
  (updatePendingNodeConnections g s2 s2.pendingNodeConnections).andThen (fun s3 =>
    AudioContext.derefFinishedSourceNodes g { s3 with pendingNodeConnections := [] })

/-- The method `AudioContext::markForDeletion`. -/
def AudioContext.markForDeletion (r : ContextRenderLock) (s : AudioContext)
    (node : Node) : Outcome :=
  if r.context = false then Outcome.fault Fault.assertRenderLockContext s
  else if node ∈ s.m_referencedNodes then
    Outcome.done { s with m_nodesMarkedForDeletion := s.m_nodesMarkedForDeletion ++ [node] }
  else Outcome.fault Fault.assertDeleteUnreferencedNode s

/-- The method `AudioContext::deleteMarkedNodes`. -/
def AudioContext.deleteMarkedNodes (s : AudioContext) : AudioContext :=
  { s with m_nodesToDelete := [], m_isDeletionScheduled := false }

/-- The method `AudioContext::scheduleNodeDeletion`. -/
def AudioContext.scheduleNodeDeletion (r : ContextRenderLock) (s : AudioContext) : Outcome :=
  if (s.m_isInitialized && r.context) = false then Outcome.fault Fault.assertIsGood s
  else if s.m_nodesMarkedForDeletion ≠ [] ∧ s.m_isDeletionScheduled = false then
    let s1 := { s with m_nodesToDelete := s.m_nodesToDelete ++ s.m_nodesMarkedForDeletion }
    let s2 := { s1 with m_nodesMarkedForDeletion := [] }
    let s3 := { s2 with m_isDeletionScheduled := true }
    Outcome.done (AudioContext.deleteMarkedNodes s3)
  else Outcome.done s

/-- The method `AudioContext::updateAutomaticPullNodes`: `m_automaticPullNodes` is listed
in the iteration order of the `std::set`. -/
def AudioContext.updateAutomaticPullNodes (s : AudioContext) : AudioContext :=
  if s.m_automaticPullNodesNeedUpdating then
    { s with m_renderingAutomaticPullNodes := s.m_automaticPullNodes,
             m_automaticPullNodesNeedUpdating := false }
  else s

/-- The method `AudioContext::handlePreRenderTasks`. -/
def AudioContext.handlePreRenderTasks (r : ContextRenderLock) (s : AudioContext) : Outcome :=
  if r.context = false then Outcome.fault Fault.assertRenderLockContext s
  else
    let s1 := callExternal s ExternalCall.handleDirtyAudioSummingJunctions
    Outcome.done (AudioContext.updateAutomaticPullNodes s1)

/-- The method `AudioContext::handlePostRenderTasks`. -/
def AudioContext.handlePostRenderTasks (r : ContextRenderLock) (s : AudioContext) : Outcome :=
  if r.context = false then Outcome.fault Fault.assertRenderLockContext s
  else
    (AudioContext.scheduleNodeDeletion r s).andThen (fun s1 =>
      let s2 := callExternal s1 ExternalCall.handleDirtyAudioSummingJunctions
      let s3 := AudioContext.updateAutomaticPullNodes s2
      Outcome.done (AudioContext.handleAutomaticSources s3))

/-- A connect or disconnect request as a control thread submits it: one constructor for
each overload of `AudioContext::connect` and `AudioContext::disconnect`. -/
inductive Request where
  | connect (from_ to_ : Node)
  | connectInput (fromInput : AudioNodeInput) (toOutput : AudioNodeOutput)
  | disconnect (from_ to_ : Node)
  | disconnectAll (from_ : Node)
  | disconnectOutput (toOutput : AudioNodeOutput)
deriving DecidableEq, Repr

/-- Submitting a request calls the matching overload. -/
def AudioContext.submit (s : AudioContext) : Request → AudioContext
  | Request.connect f t => AudioContext.connect s f t
  | Request.connectInput i o => AudioContext.connectInput s i o
  | Request.disconnect f t => AudioContext.disconnect s f t
  | Request.disconnectAll f => AudioContext.disconnectAll s f
  | Request.disconnectOutput o => AudioContext.disconnectOutput s o

/-- Submitting a sequence of requests, first to last. -/
def AudioContext.submitAll (s : AudioContext) (reqs : List Request) : AudioContext :=
  reqs.foldl AudioContext.submit s

/-- Whether a request names ports rather than nodes. -/
def Request.isPortLevel : Request → Bool
  | Request.connectInput _ _ => true
  | Request.disconnectOutput _ => true
  | _ => false

/-- The queue entry a port-level request becomes. -/
def Request.toPendingConnection : Request → Option PendingConnection
  | Request.connectInput i o => some ⟨some i, some o, true⟩
  | Request.disconnectOutput o => some ⟨none, some o, false⟩
  | _ => none

/-- The queue entry a node-level request becomes. -/
def Request.toPendingNodeConnection : Request → Option PendingNodeConnection
  | Request.connect f t => some ⟨some f, some t, true⟩
  | Request.disconnect f t => some ⟨some f, some t, false⟩
  | Request.disconnectAll f => some ⟨some f, none, false⟩
  | _ => none

/-- Spec reading of "applying one request": what `update` does for that request alone. -/
def specApplyRequest (g : ContextGraphLock) (s : AudioContext) : Request → Outcome
  | Request.connect f t => updatePendingNodeConnection g s ⟨some f, some t, true⟩
  | Request.connectInput i o => Outcome.done (updatePendingConnection s ⟨some i, some o, true⟩)
  | Request.disconnect f t => updatePendingNodeConnection g s ⟨some f, some t, false⟩
  | Request.disconnectAll f => updatePendingNodeConnection g s ⟨some f, none, false⟩
  | Request.disconnectOutput o => Outcome.done (updatePendingConnection s ⟨none, some o, false⟩)

/-- Spec reading of "applying the requests one at a time in the order given". -/
def specApplyInOrder (g : ContextGraphLock) : AudioContext → List Request → Outcome
  | s, [] => Outcome.done s
  | s, q :: rest => (specApplyRequest g s q).andThen (fun s1 => specApplyInOrder g s1 rest)

/-- Two states hold the same graph: wiring, Reference Set, connection reference counts
and Finished Set agree. -/
def AudioContext.sameGraph (s t : AudioContext) : Prop :=
  s.wiring = t.wiring ∧ s.m_referencedNodes = t.m_referencedNodes ∧
    s.connectionRefCount = t.connectionRefCount ∧ s.m_finishedNodes = t.m_finishedNodes

/-- Two outcomes agree on whether and how the call stopped and on the graph left behind. -/
def Outcome.sameGraph (a b : Outcome) : Prop :=
  a.fault? = b.fault? ∧ AudioContext.sameGraph a.state b.state

/-- Nodes 1 and 2 each feed node 3; there is no connection between 1 and 2. -/
def twoSourcesIntoThree : AudioContext :=
  (AudioContext.update ⟨true⟩
    (AudioContext.connect (AudioContext.connect (AudioContext.fresh false) 1 3) 2 3)).state

/-- An initialized context with one submitted, not yet applied, request: connect 1 to 2. -/
def onePendingConnect : AudioContext :=
  AudioContext.connect { AudioContext.fresh false with m_isInitialized := true } 1 2

/-- Whether some connection joins a port of `a` and a port of `b`, in either direction. -/
def edgeBetween (w : Wiring) (a b : Node) : Bool :=
  w.any (fun e => (decide (e.1.node = a) && decide (e.2.node = b)) ||
    (decide (e.1.node = b) && decide (e.2.node = a)))

/-- A context whose Reference Set holds exactly one entry, for node 7. -/
def onlySevenReferenced : AudioContext :=
  AudioContext.referenceSourceNode ⟨true⟩ (AudioContext.fresh false) 7

/-- The method `AudioContext::setDestinationNode`. -/
def AudioContext.setDestinationNode (s : AudioContext) (node : Option Node) : AudioContext :=
  { s with m_destinationNode := node }

/-- The method `AudioContext::lazyInitialize`. -/
def AudioContext.lazyInitialize (s : AudioContext) : Outcome :=
  if s.m_isInitialized = false then
    if s.m_isAudioThreadFinished then Outcome.fault Fault.assertAudioThreadNotFinished s
    else
      let s1 :=
        match s.m_destinationNode with
        | some d =>
          let s2 := callExternal s (ExternalCall.destinationInitialize d)
          if s2.m_isOfflineContext = false then
            callExternal s2 (ExternalCall.destinationStartRendering d)
          else s2
        | none => s
      Outcome.done { s1 with m_isInitialized := true }
  else Outcome.done s

/-- The method `AudioContext::isInitialized`. -/
def AudioContext.isInitialized (s : AudioContext) : Bool :=
  s.m_isInitialized

/-- One pass through the body of the do-while loop of `AudioContext::clear`. -/
def clearBody (s : AudioContext) : AudioContext :=
  let s1 := AudioContext.deleteMarkedNodes s
  let s2 := { s1 with m_nodesToDelete := s1.m_nodesToDelete ++ s1.m_nodesMarkedForDeletion }
  { s2 with m_nodesMarkedForDeletion := [] }

/-- The do-while loop of `AudioContext::clear` with a bound on the number of passes: the
result is the state at loop exit and the number of passes made, or `none` when the bound
is used up before `m_nodesToDelete.size()` is zero. -/
def clearLoop : Nat → AudioContext → Option (AudioContext × Nat)
  | 0, _ => none
  | fuel + 1, s =>
    let s1 := clearBody s
    if s1.m_nodesToDelete ≠ [] then
      (clearLoop fuel s1).map (fun p => (p.1, p.2 + 1))
    else some (s1, 1)

/-- The method `AudioContext::clear`. Two passes are always enough for the loop to exit
(`clearLoop_two_passes` below), so the loop is run with that bound. -/
def AudioContext.clear (s : AudioContext) : AudioContext :=
  match clearLoop 2 s with
  | some p => p.1
  | none => s

/-- The method `AudioContext::uninitialize`. `m_destinationNode->uninitialize()` on an
empty handle is a null dereference. -/
def AudioContext.uninitialize (_g : ContextGraphLock) (s : AudioContext) : Outcome :=
  if s.m_isInitialized = false then Outcome.done s
  else
    match s.m_destinationNode with
    | none => Outcome.fault Fault.nullDereference s
    | some d =>
      let s1 := callExternal s (ExternalCall.destinationUninitialize d)
      let s2 := { s1 with m_isAudioThreadFinished := true }
      let s3 := { s2 with m_referencedNodes := [] }
      Outcome.done { s3 with m_isInitialized := false }

/-- The method `AudioContext::stop`. -/
def AudioContext.stop (g : ContextGraphLock) (s : AudioContext) : Outcome :=
  if s.m_isStopScheduled then Outcome.done s
  else
    let s1 := { s with m_isStopScheduled := true }
    let s2 := AudioContext.deleteMarkedNodes s1
    ( AudioContext.uninitialize g s2).andThen (fun s3 => Outcome.done (AudioContext.clear s3))

/-- The method `AudioContext::addAutomaticPullNode`. The `std::set` is kept as the list of
its elements in iteration order (ascending handles). -/
def AudioContext.addAutomaticPullNode (s : AudioContext) (node : Node) : AudioContext :=
  if node ∉ s.m_automaticPullNodes then
    { s with m_automaticPullNodes := s.m_automaticPullNodes.orderedInsert (· ≤ ·) node,
             m_automaticPullNodesNeedUpdating := true }
  else s

/-- The method `AudioContext::removeAutomaticPullNode`. -/
def AudioContext.removeAutomaticPullNode (s : AudioContext) (node : Node) : AudioContext :=
  if node ∈ s.m_automaticPullNodes then
    { s with m_automaticPullNodes := s.m_automaticPullNodes.erase node,
             m_automaticPullNodesNeedUpdating := true }
  else s

/-- The method `AudioContext::processAutomaticPullNodes`: one `processIfNecessary` call
for each entry of `m_renderingAutomaticPullNodes`, in index order. -/
def AudioContext.processAutomaticPullNodes (_r : ContextRenderLock) (s : AudioContext)
    (_framesToProcess : Nat) : AudioContext :=
  s.m_renderingAutomaticPullNodes.foldl
    (fun t n => callExternal t (ExternalCall.processIfNecessary n)) s

/-- States reachable from a freshly constructed context by the operations that touch the
Reference Set and the deletion lists, together with the operations that submit requests,
set the destination and initialise the context. An operation that stops at a fault leaves
the state it had reached. -/
inductive Reachable : AudioContext → Prop where
  | fresh ( offline : Bool) : Reachable (AudioContext.fresh offline)
  | setDestinationNode (s : AudioContext) (d : Option Node) :
      Reachable s → Reachable (AudioContext.setDestinationNode s d)
  | lazyInitialize (s : AudioContext) :
      Reachable s → Reachable ( AudioContext.lazyInitialize s).state
  | submit (s : AudioContext) (q : Request) : Reachable s → Reachable (AudioContext.submit s q)
  | referenceSourceNode (g : ContextGraphLock) (s : AudioContext) (n : Node) :
      Reachable s → Reachable (AudioContext.referenceSourceNode g s n)
  | dereferenceSourceNode (g : ContextGraphLock) (s : AudioContext) (n : Node) :
      Reachable s → Reachable (AudioContext.dereferenceSourceNode g s n).state
  | notifyNodeFinishedProcessing (r : ContextRenderLock) (s : AudioContext) (n : Node) :
      Reachable s → Reachable (AudioContext.notifyNodeFinishedProcessing r s n).state
  | derefFinishedSourceNodes (g : ContextGraphLock) (s : AudioContext) :
      Reachable s → Reachable (AudioContext.derefFinishedSourceNodes g s).state
  | markForDeletion (r : ContextRenderLock) (s : AudioContext) (n : Node) :
      Reachable s → Reachable (AudioContext.markForDeletion r s n).state
  | scheduleNodeDeletion (r : ContextRenderLock) (s : AudioContext) :
      Reachable s → Reachable (AudioContext.scheduleNodeDeletion r s).state
  | deleteMarkedNodes (s : AudioContext) :
      Reachable s → Reachable (AudioContext.deleteMarkedNodes s)
  | update (g : ContextGraphLock) (s : AudioContext) :
      Reachable s → Reachable (AudioContext.update g s).state
  | handlePreRenderTasks (r : ContextRenderLock) (s : AudioContext) :
      Reachable s → Reachable (AudioContext.handlePreRenderTasks r s).state
  | handlePostRenderTasks (r : ContextRenderLock) (s : AudioContext) :
      Reachable s → Reachable (AudioContext.handlePostRenderTasks r s).state
  | uninitialize (g : ContextGraphLock) (s : AudioContext) :
      Reachable s → Reachable ( AudioContext.uninitialize g s).state
  | stop (g : ContextGraphLock) (s : AudioContext) :
      Reachable s → Reachable (AudioContext.stop g s).state
  | clear (s : AudioContext) : Reachable s → Reachable (AudioContext.clear s)

/-- States reachable from a freshly constructed context by the automatic-pull operations
and the two render-phase hooks. -/
inductive PullReachable : AudioContext → Prop where
  | fresh ( offline : Bool) : PullReachable (AudioContext.fresh offline)
  | addAutomaticPullNode (s : AudioContext) (n : Node) :
      PullReachable s → PullReachable (AudioContext.addAutomaticPullNode s n)
  | removeAutomaticPullNode (s : AudioContext) (n : Node) :
      PullReachable s → PullReachable (AudioContext.removeAutomaticPullNode s n)
  | updateAutomaticPullNodes (s : AudioContext) :
      PullReachable s → PullReachable (AudioContext.updateAutomaticPullNodes s)
  | handlePreRenderTasks (r : ContextRenderLock) (s : AudioContext) :
      PullReachable s → PullReachable (AudioContext.handlePreRenderTasks r s).state
  | handlePostRenderTasks (r : ContextRenderLock) (s : AudioContext) :
      PullReachable s → PullReachable (AudioContext.handlePostRenderTasks r s).state

/-- States reachable from a freshly constructed context by `setDestinationNode`,
`lazyInitialize`, `uninitialize` and `stop`. -/
inductive InitReachable : AudioContext → Prop where
  | fresh ( offline : Bool) : InitReachable (AudioContext.fresh offline)
  | setDestinationNode (s : AudioContext) (d : Option Node) :
      InitReachable s → InitReachable (AudioContext.setDestinationNode s d)
  | lazyInitialize (s : AudioContext) :
      InitReachable s → InitReachable ( AudioContext.lazyInitialize s).state
  | uninitialize (g : ContextGraphLock) (s : AudioContext) :
      InitReachable s → InitReachable ( AudioContext.uninitialize g s).state
  | stop (g : ContextGraphLock) (s : AudioContext) :
      InitReachable s → InitReachable (AudioContext.stop g s).state

/-- Spec reading of "the first matching entry removed; an entry with no match is skipped". -/
def specRemoveFirstMatch : List Node → Node → List Node
  | [], _ => []
  | x :: rest, n => if x = n then rest else x :: specRemoveFirstMatch rest n

/-- Spec reading of the Reference Set after `derefFinishedSourceNodes`: one removal for
each entry of the Finished Set, taken in order. -/
def specDerefFinished (referenced finished : List Node) : List Node :=
  finished.foldl specRemoveFirstMatch referenced

/-- An initialized real-time context with destination node 0 in which node 7 is referenced
and has been marked for deletion. -/
def sevenMarkedForDeletion : AudioContext :=
  (AudioContext.markForDeletion ⟨true⟩
    (AudioContext.referenceSourceNode ⟨true⟩
      ( AudioContext.lazyInitialize
        (AudioContext.setDestinationNode (AudioContext.fresh false) (some 0))).state 7) 7).state

/-- A context holding the scheduled sources 1 and 2, both of which have finished. -/
def twoFinishedSources : AudioContext :=
  AudioContext.holdSourceNodeUntilFinished
    (AudioContext.holdSourceNodeUntilFinished
      { AudioContext.fresh false with hasFinished := fun _ => true } 1) 2

/-- The snapshot is in step with the Automatic Pull Set: unless an update is pending the
rendering list is the list of the set, and the set lists no node twice. -/
def pullSnapshotInStep (s : AudioContext) : Prop :=
  (s.m_automaticPullNodesNeedUpdating = false →
    s.m_renderingAutomaticPullNodes = s.m_automaticPullNodes) ∧
  s.m_automaticPullNodes.Nodup

/-- Nodes 5 and 3 were added to the Automatic Pull Set, then 5 was removed. -/
def onlyThreePulled : AudioContext :=
  AudioContext.removeAutomaticPullNode
    (AudioContext.addAutomaticPullNode
      (AudioContext.addAutomaticPullNode (AudioContext.fresh false) 5) 3) 5

/-- Nodes 1 and 2 each feed node 3, and node 3 has reported twice that it finished. -/
def threeFinishedTwice : AudioContext :=
  (AudioContext.notifyNodeFinishedProcessing ⟨true⟩
    (AudioContext.notifyNodeFinishedProcessing ⟨true⟩ twoSourcesIntoThree 3).state 3).state

/-- A real-time context with destination node 0 that was initialized and then
uninitialized. -/
def initializedThenUninitialized : AudioContext :=
  ( AudioContext.uninitialize ⟨true⟩
    ( AudioContext.lazyInitialize
      (AudioContext.setDestinationNode (AudioContext.fresh false) (some 0))).state).state

/-- A fresh context in which the reference count of node 1 stands at 2147483647, the
largest value of a C `int`. -/
def countAtIntMax : AudioContext :=
  { AudioContext.fresh false with
    connectionRefCount := fun n => if n = 1 then CInt.ofInt 2147483647 else CInt.ofInt 0 }

/-! ## Lemmas shared by the results below -/

theorem wrapInt_of_range (x : Int) (h : -2147483648 ≤ x ∧ x < 2147483648) : wrapInt x = x := by
  unfold wrapInt
  omega

theorem ofInt_val (x : Int) : (CInt.ofInt x).val = wrapInt x :=
  rfl

theorem foldl_updatePendingConnection_eq (l : List PendingConnection) (s : AudioContext) :
    l.foldl updatePendingConnection s =
      { s with wiring := (l.foldl updatePendingConnection s).wiring } := by
  induction l generalizing s with
  | nil => rfl
  | cons i rest ih =>
    simp only [List.foldl_cons]
    rw [ih]
    unfold updatePendingConnection
    split <;> rfl

theorem sameGraph_refl (s : AudioContext) : AudioContext.sameGraph s s :=
  ⟨rfl, rfl, rfl, rfl⟩

theorem updatePendingConnection_sameGraph (s t : AudioContext) (i : PendingConnection)
    (h : AudioContext.sameGraph s t) :
    AudioContext.sameGraph (updatePendingConnection s i) (updatePendingConnection t i) := by
  obtain ⟨hw, hr, hc, hf⟩ := h
  unfold updatePendingConnection
  split <;> simp [AudioContext.sameGraph, hw, hr, hc, hf]

theorem updatePendingNodeConnection_sameGraph (g : ContextGraphLock) (s t : AudioContext)
    (i : PendingNodeConnection) (h : AudioContext.sameGraph s t) :
    Outcome.sameGraph (updatePendingNodeConnection g s i) (updatePendingNodeConnection g t i) := by
  obtain ⟨hw, hr, hc, hf⟩ := h
  obtain ⟨f, t0, c⟩ := i
  cases hg : g.context <;> cases c <;> cases f <;> cases t0 <;>
    simp [updatePendingNodeConnection, Outcome.sameGraph, AudioContext.sameGraph, Outcome.state,
      Outcome.fault?, Outcome.andThen, AudioContext.dereferenceSourceNode,
      AudioContext.referenceSourceNode, atomicIncrement, atomicDecrement, callExternal,
      hw, hr, hc, hf, hg]

theorem andThen_sameGraph (a b : Outcome) (k m : AudioContext → Outcome)
    (h : Outcome.sameGraph a b)
    (hk : ∀ s t, AudioContext.sameGraph s t → Outcome.sameGraph (k s) (m t)) :
    Outcome.sameGraph (a.andThen k) (b.andThen m) := by
  obtain ⟨hf, hs⟩ := h
  cases a <;> cases b
  · exact hk _ _ hs
  · simp [Outcome.fault?] at hf
  · simp [Outcome.fault?] at hf
  · exact ⟨hf, hs⟩

theorem updatePendingNodeConnections_sameGraph (g : ContextGraphLock)
    (l : List PendingNodeConnection) (s t : AudioContext) (h : AudioContext.sameGraph s t) :
    Outcome.sameGraph (updatePendingNodeConnections g s l) (updatePendingNodeConnections g t l) := by
  induction l generalizing s t with
  | nil => exact ⟨rfl, h⟩
  | cons i rest ih =>
    simp only [updatePendingNodeConnections]
    exact andThen_sameGraph _ _ _ _ (updatePendingNodeConnection_sameGraph g s t i h) ih

theorem derefFinishedLoop_sameGraph (g : ContextGraphLock) (l : List Node)
    (s t : AudioContext) (h : AudioContext.sameGraph s t) :
    Outcome.sameGraph (derefFinishedLoop g s l) (derefFinishedLoop g t l) := by
  induction l generalizing s t with
  | nil => exact ⟨rfl, h⟩
  | cons n rest ih =>
    simp only [derefFinishedLoop]
    refine andThen_sameGraph _ _ _ _ ?_ ih
    obtain ⟨hw, hr, hc, hf⟩ := h
    cases hg : g.context <;>
      simp [AudioContext.dereferenceSourceNode, Outcome.sameGraph, AudioContext.sameGraph,
        Outcome.state, Outcome.fault?, hw, hr, hc, hf, hg]

theorem derefFinishedSourceNodes_sameGraph (g : ContextGraphLock) (s t : AudioContext)
    (h : AudioContext.sameGraph s t) :
    Outcome.sameGraph (AudioContext.derefFinishedSourceNodes g s)
      (AudioContext.derefFinishedSourceNodes g t) := by
  unfold AudioContext.derefFinishedSourceNodes
  cases hg : g.context
  · simpa [Outcome.sameGraph, Outcome.state, Outcome.fault?] using h
  · simp only [Bool.true_eq_false, if_false]
    rw [h.2.2.2]
    refine andThen_sameGraph _ _ _ _ (derefFinishedLoop_sameGraph g _ s t h) ?_
    intro a b hab
    obtain ⟨hw, hr, hc, hf⟩ := hab
    simp [Outcome.sameGraph, AudioContext.sameGraph, Outcome.state, Outcome.fault?, hw, hr, hc]

theorem submitAll_eq (reqs : List Request) (s : AudioContext) :
    AudioContext.submitAll s reqs =
      { s with
        pendingConnections :=
          s.pendingConnections ++ reqs.filterMap Request.toPendingConnection,
        pendingNodeConnections :=
          s.pendingNodeConnections ++ reqs.filterMap Request.toPendingNodeConnection } := by
  induction reqs generalizing s with
  | nil => simp [AudioContext.submitAll]
  | cons q rest ih =>
    have hstep : AudioContext.submitAll s (q :: rest) =
        AudioContext.submitAll (AudioContext.submit s q) rest := rfl
    rw [hstep, ih]
    cases q <;>
      simp [AudioContext.submit, AudioContext.connect, AudioContext.connectInput,
        AudioContext.disconnect, AudioContext.disconnectAll, AudioContext.disconnectOutput,
        Request.toPendingConnection, Request.toPendingNodeConnection]

theorem specApplyInOrder_append (g : ContextGraphLock) (l1 l2 : List Request)
    (s : AudioContext) :
    specApplyInOrder g s (l1 ++ l2) =
      (specApplyInOrder g s l1).andThen (fun s1 => specApplyInOrder g s1 l2) := by
  induction l1 generalizing s with
  | nil => rfl
  | cons q rest ih =>
    simp only [List.cons_append, specApplyInOrder]
    cases specApplyRequest g s q with
    | done s1 => simpa [Outcome.andThen] using ih s1
    | fault f s1 => rfl

theorem specApplyInOrder_ports (g : ContextGraphLock) (reqs : List Request)
    (s t : AudioContext) (h : AudioContext.sameGraph s t) :
    ∃ s1, specApplyInOrder g s (reqs.filter Request.isPortLevel) = Outcome.done s1 ∧
      AudioContext.sameGraph s1
        ((reqs.filterMap Request.toPendingConnection).foldl updatePendingConnection t) := by
  induction reqs generalizing s t with
  | nil => exact ⟨s, rfl, h⟩
  | cons q rest ih =>
    cases q with
    | connect f t0 => simpa [Request.isPortLevel, Request.toPendingConnection] using ih s t h
    | disconnect f t0 => simpa [Request.isPortLevel, Request.toPendingConnection] using ih s t h
    | disconnectAll f => simpa [Request.isPortLevel, Request.toPendingConnection] using ih s t h
    | connectInput i o =>
      simpa [Request.isPortLevel, Request.toPendingConnection, specApplyInOrder,
        specApplyRequest, Outcome.andThen] using
        ih _ _ (updatePendingConnection_sameGraph s t ⟨some i, some o, true⟩ h)
    | disconnectOutput o =>
      simpa [Request.isPortLevel, Request.toPendingConnection, specApplyInOrder,
        specApplyRequest, Outcome.andThen] using
        ih _ _ (updatePendingConnection_sameGraph s t ⟨none, some o, false⟩ h)

theorem specApplyInOrder_nodes (g : ContextGraphLock) (reqs : List Request)
    (s t : AudioContext) (h : AudioContext.sameGraph s t) :
    Outcome.sameGraph
      (specApplyInOrder g s (reqs.filter (fun q => !q.isPortLevel)))
      (updatePendingNodeConnections g t (reqs.filterMap Request.toPendingNodeConnection)) := by
  induction reqs generalizing s t with
  | nil => exact ⟨rfl, h⟩
  | cons q rest ih =>
    cases q with
    | connectInput i o =>
      simpa [Request.isPortLevel, Request.toPendingNodeConnection] using ih s t h
    | disconnectOutput o =>
      simpa [Request.isPortLevel, Request.toPendingNodeConnection] using ih s t h
    | connect f t0 =>
      simp only [Request.isPortLevel, Request.toPendingNodeConnection, Bool.not_false,
        List.filter_cons_of_pos, List.filterMap_cons_some, specApplyInOrder,
        updatePendingNodeConnections, specApplyRequest]
      exact andThen_sameGraph _ _ _ _ (updatePendingNodeConnection_sameGraph g s t _ h) ih
    | disconnect f t0 =>
      simp only [Request.isPortLevel, Request.toPendingNodeConnection, Bool.not_false,
        List.filter_cons_of_pos, List.filterMap_cons_some, specApplyInOrder,
        updatePendingNodeConnections, specApplyRequest]
      exact andThen_sameGraph _ _ _ _ (updatePendingNodeConnection_sameGraph g s t _ h) ih
    | disconnectAll f =>
      simp only [Request.isPortLevel, Request.toPendingNodeConnection, Bool.not_false,
        List.filter_cons_of_pos, List.filterMap_cons_some, specApplyInOrder,
        updatePendingNodeConnections, specApplyRequest]
      exact andThen_sameGraph _ _ _ _ (updatePendingNodeConnection_sameGraph g s t _ h) ih

theorem foldl_updatePendingConnection_pendingNode (l : List PendingConnection)
    (s : AudioContext) :
    (l.foldl updatePendingConnection s).pendingNodeConnections = s.pendingNodeConnections := by
  rw [foldl_updatePendingConnection_eq]

theorem outcome_sameGraph_symm (a b : Outcome) (h : Outcome.sameGraph a b) :
    Outcome.sameGraph b a :=
  ⟨h.1.symm, h.2.1.symm, h.2.2.1.symm, h.2.2.2.1.symm, h.2.2.2.2.symm⟩

/-- C1 (amended): `AudioContext::update` applies every port-level request in submission
order, then every node-level request in submission order, then dereferences the finished
nodes; the fault (if any), wiring, Reference Set, reference counts and Finished Set are
those of applying the requests one at a time in that order. -/
theorem update_applies_ports_then_nodes (g : ContextGraphLock) (s : AudioContext)
    (reqs : List Request) (hp : s.pendingConnections = [])
    (hn : s.pendingNodeConnections = []) :
    Outcome.sameGraph (AudioContext.update g (AudioContext.submitAll s reqs))
      ((specApplyInOrder g s
          (reqs.filter Request.isPortLevel ++ reqs.filter (fun q => !q.isPortLevel))).andThen
        (AudioContext.derefFinishedSourceNodes g)) := by
  apply outcome_sameGraph_symm
  rw [specApplyInOrder_append, submitAll_eq, hp, hn]
  simp only [List.nil_append]
  generalize hS : ({ s with
      pendingConnections := reqs.filterMap Request.toPendingConnection,
      pendingNodeConnections := reqs.filterMap Request.toPendingNodeConnection } :
      AudioContext) = S
  have hpc : S.pendingConnections = reqs.filterMap Request.toPendingConnection := by
    rw [← hS]
  have hpn : S.pendingNodeConnections = reqs.filterMap Request.toPendingNodeConnection := by
    rw [← hS]
  have hsS : AudioContext.sameGraph s S := by
    rw [← hS]; exact ⟨rfl, rfl, rfl, rfl⟩
  obtain ⟨sp, hsp, hgp⟩ := specApplyInOrder_ports g reqs s S hsS
  rw [hsp]
  unfold AudioContext.update
  simp only [Outcome.andThen, foldl_updatePendingConnection_pendingNode, hpc, hpn]
  refine andThen_sameGraph _ _ _ _ (specApplyInOrder_nodes g reqs sp _ ?_) ?_
  · exact ⟨hgp.1, hgp.2.1, hgp.2.2.1, hgp.2.2.2⟩
  · intro a b hab
    exact derefFinishedSourceNodes_sameGraph g a _ ⟨hab.1, hab.2.1, hab.2.2.1, hab.2.2.2⟩

/-- C1 (witness): the amended statement at the two requests of the counterexample. -/
theorem update_applies_ports_then_nodes_witness :
    (AudioContext.fresh false).pendingConnections = [] ∧
    (AudioContext.fresh false).pendingNodeConnections = [] ∧
    Outcome.sameGraph
      (AudioContext.update ⟨true⟩ (AudioContext.submitAll (AudioContext.fresh false)
        [Request.connect 1 2, Request.disconnectOutput ⟨1, 0⟩]))
      ((specApplyInOrder ⟨true⟩ (AudioContext.fresh false)
          ([Request.connect 1 2, Request.disconnectOutput ⟨1, 0⟩].filter Request.isPortLevel ++
            [Request.connect 1 2, Request.disconnectOutput ⟨1, 0⟩].filter
              (fun q => !q.isPortLevel))).andThen
        (AudioContext.derefFinishedSourceNodes ⟨true⟩)) :=
  ⟨rfl, rfl, update_applies_ports_then_nodes ⟨true⟩ (AudioContext.fresh false)
    [Request.connect 1 2, Request.disconnectOutput ⟨1, 0⟩] rfl rfl⟩

/-- C1 (counterexample): a node-level connect of 1 to 2 followed by a port-level
disconnect of output 0 of node 1. Applied in submission order the wiring ends empty;
`update` runs the port-level request first and ends with the connection in place. -/
theorem update_not_in_submission_order :
    (AudioContext.update ⟨true⟩ (AudioContext.submitAll (AudioContext.fresh false)
        [Request.connect 1 2, Request.disconnectOutput ⟨1, 0⟩])).state.wiring
      = [(⟨2, 0⟩, ⟨1, 0⟩)] ∧
    (specApplyInOrder ⟨true⟩ (AudioContext.fresh false)
        [Request.connect 1 2, Request.disconnectOutput ⟨1, 0⟩]).state.wiring = [] ∧
    ¬ Outcome.sameGraph
      (AudioContext.update ⟨true⟩ (AudioContext.submitAll (AudioContext.fresh false)
        [Request.connect 1 2, Request.disconnectOutput ⟨1, 0⟩]))
      (specApplyInOrder ⟨true⟩ (AudioContext.fresh false)
        [Request.connect 1 2, Request.disconnectOutput ⟨1, 0⟩]) := by
  refine ⟨by decide, by decide, ?_⟩
  intro h
  exact absurd h.2.1 (by decide)

theorem updateAutomaticPullNodes_sameGraph (s : AudioContext) :
    AudioContext.sameGraph (AudioContext.updateAutomaticPullNodes s) s := by
  unfold AudioContext.updateAutomaticPullNodes
  split <;> exact ⟨rfl, rfl, rfl, rfl⟩

theorem updateAutomaticPullNodes_queues (s : AudioContext) :
    (AudioContext.updateAutomaticPullNodes s).pendingConnections = s.pendingConnections ∧
    (AudioContext.updateAutomaticPullNodes s).pendingNodeConnections =
      s.pendingNodeConnections := by
  unfold AudioContext.updateAutomaticPullNodes
  split <;> exact ⟨rfl, rfl⟩

theorem scheduleNodeDeletion_frame (r : ContextRenderLock) (s : AudioContext) :
    AudioContext.sameGraph (AudioContext.scheduleNodeDeletion r s).state s ∧
    (AudioContext.scheduleNodeDeletion r s).state.pendingConnections = s.pendingConnections ∧
    (AudioContext.scheduleNodeDeletion r s).state.pendingNodeConnections =
      s.pendingNodeConnections := by
  unfold AudioContext.scheduleNodeDeletion
  split
  · exact ⟨⟨rfl, rfl, rfl, rfl⟩, rfl, rfl⟩
  · split <;> exact ⟨⟨rfl, rfl, rfl, rfl⟩, rfl, rfl⟩

theorem handlePreRenderTasks_frame (r : ContextRenderLock) (s : AudioContext) :
    AudioContext.sameGraph (AudioContext.handlePreRenderTasks r s).state s ∧
    (AudioContext.handlePreRenderTasks r s).state.pendingConnections = s.pendingConnections ∧
    (AudioContext.handlePreRenderTasks r s).state.pendingNodeConnections =
      s.pendingNodeConnections := by
  unfold AudioContext.handlePreRenderTasks
  split
  · exact ⟨⟨rfl, rfl, rfl, rfl⟩, rfl, rfl⟩
  · simp only [Outcome.state]
    have h1 := updateAutomaticPullNodes_sameGraph
      (callExternal s ExternalCall.handleDirtyAudioSummingJunctions)
    have h2 := updateAutomaticPullNodes_queues
      (callExternal s ExternalCall.handleDirtyAudioSummingJunctions)
    exact ⟨h1, h2.1, h2.2⟩

theorem handlePostRenderTasks_frame (r : ContextRenderLock) (s : AudioContext) :
    AudioContext.sameGraph (AudioContext.handlePostRenderTasks r s).state s ∧
    (AudioContext.handlePostRenderTasks r s).state.pendingConnections = s.pendingConnections ∧
    (AudioContext.handlePostRenderTasks r s).state.pendingNodeConnections =
      s.pendingNodeConnections := by
  have hs := scheduleNodeDeletion_frame r s
  unfold AudioContext.handlePostRenderTasks
  split
  · exact ⟨⟨rfl, rfl, rfl, rfl⟩, rfl, rfl⟩
  · cases h : AudioContext.scheduleNodeDeletion r s with
    | fault f s1 =>
      rw [h] at hs
      simpa [Outcome.andThen, Outcome.state] using hs
    | done s1 =>
      rw [h] at hs
      simp only [Outcome.state] at hs
      simp only [Outcome.andThen, Outcome.state]
      have h1 := updateAutomaticPullNodes_sameGraph
        (callExternal s1 ExternalCall.handleDirtyAudioSummingJunctions)
      have h2 := updateAutomaticPullNodes_queues
        (callExternal s1 ExternalCall.handleDirtyAudioSummingJunctions)
      obtain ⟨⟨a1, a2, a3, a4⟩, a5, a6⟩ := hs
      obtain ⟨b1, b2, b3, b4⟩ := h1
      refine ⟨⟨?_, ?_, ?_, ?_⟩, ?_, ?_⟩
      · exact b1.trans a1
      · exact b2.trans a2
      · exact b3.trans a3
      · exact b4.trans a4
      · exact h2.1.trans a5
      · exact h2.2.trans a6

theorem andThen_queues (o : Outcome) (k : AudioContext → Outcome) (p : List PendingConnection)
    (n : List PendingNodeConnection)
    (ho : o.state.pendingConnections = p ∧ o.state.pendingNodeConnections = n)
    (hk : ∀ s, s.pendingConnections = p ∧ s.pendingNodeConnections = n →
      (k s).state.pendingConnections = p ∧ (k s).state.pendingNodeConnections = n) :
    (o.andThen k).state.pendingConnections = p ∧
      (o.andThen k).state.pendingNodeConnections = n := by
  cases o with
  | done s => exact hk s ho
  | fault f s => exact ho

theorem dereferenceSourceNode_queues (g : ContextGraphLock) (s : AudioContext) (n : Node) :
    (AudioContext.dereferenceSourceNode g s n).state.pendingConnections =
        s.pendingConnections ∧
      (AudioContext.dereferenceSourceNode g s n).state.pendingNodeConnections =
        s.pendingNodeConnections := by
  unfold AudioContext.dereferenceSourceNode
  split <;> exact ⟨rfl, rfl⟩

theorem derefFinishedLoop_queues (g : ContextGraphLock) (l : List Node) (s : AudioContext) :
    (derefFinishedLoop g s l).state.pendingConnections = s.pendingConnections ∧
      (derefFinishedLoop g s l).state.pendingNodeConnections = s.pendingNodeConnections := by
  induction l generalizing s with
  | nil => exact ⟨rfl, rfl⟩
  | cons n rest ih =>
    simp only [derefFinishedLoop]
    refine andThen_queues _ _ _ _ (dereferenceSourceNode_queues g s n) ?_
    intro s1 h1
    rw [← h1.1, ← h1.2]
    exact ih s1

theorem updatePendingNodeConnection_queues (g : ContextGraphLock) (s : AudioContext)
    (i : PendingNodeConnection) :
    (updatePendingNodeConnection g s i).state.pendingConnections = s.pendingConnections ∧
      (updatePendingNodeConnection g s i).state.pendingNodeConnections =
        s.pendingNodeConnections := by
  obtain ⟨f, t0, c⟩ := i
  cases hg : g.context <;> cases c <;> cases f <;> cases t0 <;>
    simp [updatePendingNodeConnection, Outcome.state, Outcome.andThen,
      AudioContext.dereferenceSourceNode, AudioContext.referenceSourceNode, atomicIncrement,
      atomicDecrement, callExternal, hg]

theorem updatePendingNodeConnections_queues (g : ContextGraphLock)
    (l : List PendingNodeConnection) (s : AudioContext) :
    (updatePendingNodeConnections g s l).state.pendingConnections = s.pendingConnections ∧
      (updatePendingNodeConnections g s l).state.pendingNodeConnections =
        s.pendingNodeConnections := by
  induction l generalizing s with
  | nil => exact ⟨rfl, rfl⟩
  | cons i rest ih =>
    simp only [updatePendingNodeConnections]
    refine andThen_queues _ _ _ _ (updatePendingNodeConnection_queues g s i) ?_
    intro s1 h1
    rw [← h1.1, ← h1.2]
    exact ih s1

theorem update_done_queues (g : ContextGraphLock) (s s1 : AudioContext)
    (h : AudioContext.update g s = Outcome.done s1) :
    s1.pendingConnections = [] ∧ s1.pendingNodeConnections = [] := by
  unfold AudioContext.update at h
  simp only at h
  have hq3 := updatePendingNodeConnections_queues g
      (List.foldl updatePendingConnection s s.pendingConnections).pendingNodeConnections
      { List.foldl updatePendingConnection s s.pendingConnections with pendingConnections := [] }
  cases hl : updatePendingNodeConnections g
      { List.foldl updatePendingConnection s s.pendingConnections with pendingConnections := [] }
      (List.foldl updatePendingConnection s s.pendingConnections).pendingNodeConnections with
  | fault f s3 => rw [hl] at h; simp [Outcome.andThen] at h
  | done s3 =>
    rw [hl] at h hq3
    simp only [Outcome.state] at hq3
    simp only [Outcome.andThen, AudioContext.derefFinishedSourceNodes] at h
    split at h
    · simp at h
    · have hq4 := derefFinishedLoop_queues g
          ({ s3 with pendingNodeConnections := [] } : AudioContext).m_finishedNodes
          { s3 with pendingNodeConnections := [] }
      cases hd : derefFinishedLoop g { s3 with pendingNodeConnections := [] }
          ({ s3 with pendingNodeConnections := [] } : AudioContext).m_finishedNodes with
      | fault f s4 => rw [hd] at h; simp at h
      | done s4 =>
        rw [hd] at h hq4
        simp only [Outcome.done.injEq] at h
        simp only [Outcome.state] at hq4
        subst h
        exact ⟨hq4.1.trans hq3.1, hq4.2⟩

theorem andThen_state_of (P : AudioContext → Prop) (o : Outcome) (k : AudioContext → Outcome)
    (ho : P o.state) (hk : ∀ s, P s → P (k s).state) : P (o.andThen k).state := by
  cases o with
  | done s => exact hk s ho
  | fault f s => exact ho

theorem update_sameGraph_loops (g : ContextGraphLock) (s : AudioContext) :
    Outcome.sameGraph (AudioContext.update g s)
      ((updatePendingNodeConnections g (s.pendingConnections.foldl updatePendingConnection s)
          s.pendingNodeConnections).andThen (AudioContext.derefFinishedSourceNodes g)) := by
  unfold AudioContext.update
  simp only [foldl_updatePendingConnection_pendingNode]
  refine andThen_sameGraph _ _ _ _
    (updatePendingNodeConnections_sameGraph g _ _ _ ⟨rfl, rfl, rfl, rfl⟩) ?_
  intro a b hab
  exact derefFinishedSourceNodes_sameGraph g _ _ ⟨hab.1, hab.2.1, hab.2.2.1, hab.2.2.2⟩

theorem update_pendingConnections_nil (g : ContextGraphLock) (s : AudioContext) :
    (AudioContext.update g s).state.pendingConnections = [] := by
  unfold AudioContext.update
  simp only
  refine andThen_state_of (fun t => t.pendingConnections = []) _ _ ?_ ?_
  · exact (updatePendingNodeConnections_queues g _ _).1
  · intro t ht
    unfold AudioContext.derefFinishedSourceNodes
    split
    · exact ht
    · refine andThen_state_of (fun t => t.pendingConnections = []) _ _ ?_ ?_
      · exact (derefFinishedLoop_queues g _ _).1.trans ht
      · intro u hu
        exact hu

/-- C2 (amended): neither render-phase hook applies pending requests. For every state and
every lock, after `handlePreRenderTasks` and after `handlePostRenderTasks` both pending
queues, the wiring, the Reference Set, the reference counts and the Finished Set are what
they were before the call. The requests are applied when `AudioContext::update` runs: the
graph it leaves is the one obtained by running its loop body on every pending port-level
request and then on every pending node-level request, in queue order, followed by
`derefFinishedSourceNodes`; the port-level queue is empty afterwards, and whenever `update`
completes both queues are empty. -/
theorem render_tasks_keep_requests_pending (r : ContextRenderLock) (g : ContextGraphLock)
    (s : AudioContext) :
    ((AudioContext.handlePreRenderTasks r s).state.pendingConnections = s.pendingConnections ∧
      (AudioContext.handlePreRenderTasks r s).state.pendingNodeConnections =
        s.pendingNodeConnections ∧
      AudioContext.sameGraph (AudioContext.handlePreRenderTasks r s).state s) ∧
    ((AudioContext.handlePostRenderTasks r s).state.pendingConnections = s.pendingConnections ∧
      (AudioContext.handlePostRenderTasks r s).state.pendingNodeConnections =
        s.pendingNodeConnections ∧
      AudioContext.sameGraph (AudioContext.handlePostRenderTasks r s).state s) ∧
    Outcome.sameGraph (AudioContext.update g s)
      ((updatePendingNodeConnections g (s.pendingConnections.foldl updatePendingConnection s)
          s.pendingNodeConnections).andThen (AudioContext.derefFinishedSourceNodes g)) ∧
    (AudioContext.update g s).state.pendingConnections = [] ∧
    (∀ s1, AudioContext.update g s = Outcome.done s1 →
      s1.pendingConnections = [] ∧ s1.pendingNodeConnections = []) :=
  ⟨⟨(handlePreRenderTasks_frame r s).2.1, (handlePreRenderTasks_frame r s).2.2,
      (handlePreRenderTasks_frame r s).1⟩,
    ⟨(handlePostRenderTasks_frame r s).2.1, (handlePostRenderTasks_frame r s).2.2,
      (handlePostRenderTasks_frame r s).1⟩,
    update_sameGraph_loops g s,
    update_pendingConnections_nil g s,
    fun s1 hu => update_done_queues g s s1 hu⟩

/-- C2 (witness): a context with one pending connect, on which `update` completes, and the
same context with a one-argument disconnect pending as well, on which it does not. -/
theorem render_tasks_keep_requests_pending_witness :
    AudioContext.update ⟨true⟩ onePendingConnect =
      Outcome.done (AudioContext.update ⟨true⟩ onePendingConnect).state ∧
    ((AudioContext.update ⟨true⟩ onePendingConnect).state.pendingConnections = [] ∧
      (AudioContext.update ⟨true⟩ onePendingConnect).state.pendingNodeConnections = []) ∧
    (AudioContext.update ⟨true⟩ onePendingConnect).state.wiring = [(⟨2, 0⟩, ⟨1, 0⟩)] ∧
    (AudioContext.update ⟨true⟩ (AudioContext.disconnectAll onePendingConnect 1)).fault?
      = some Fault.nullDereference ∧
    ((AudioContext.handlePreRenderTasks ⟨true⟩
        (AudioContext.disconnectAll onePendingConnect 1)).state.pendingNodeConnections =
      (AudioContext.disconnectAll onePendingConnect 1).pendingNodeConnections ∧
    (AudioContext.handlePostRenderTasks ⟨true⟩
        (AudioContext.disconnectAll onePendingConnect 1)).state.pendingNodeConnections =
      (AudioContext.disconnectAll onePendingConnect 1).pendingNodeConnections) :=
  ⟨rfl,
    (render_tasks_keep_requests_pending ⟨true⟩ ⟨true⟩ onePendingConnect).2.2.2.2
      (AudioContext.update ⟨true⟩ onePendingConnect).state rfl,
    by decide, by decide,
    (render_tasks_keep_requests_pending ⟨true⟩ ⟨true⟩
      (AudioContext.disconnectAll onePendingConnect 1)).1.2.1,
    (render_tasks_keep_requests_pending ⟨true⟩ ⟨true⟩
      (AudioContext.disconnectAll onePendingConnect 1)).2.1.2.1⟩

/-- C2 (counterexample): with connect 1 to 2 submitted, both render-phase hooks return
without a fault and the request is still in the queue, the wiring still empty. -/
theorem render_tasks_leave_request_unapplied :
    (AudioContext.handlePreRenderTasks ⟨true⟩ onePendingConnect).fault? = none ∧
    (AudioContext.handlePreRenderTasks ⟨true⟩ onePendingConnect).state.pendingNodeConnections =
      [⟨some 1, some 2, true⟩] ∧
    (AudioContext.handlePreRenderTasks ⟨true⟩ onePendingConnect).state.wiring = [] ∧
    (AudioContext.handlePostRenderTasks ⟨true⟩ onePendingConnect).fault? = none ∧
    (AudioContext.handlePostRenderTasks ⟨true⟩ onePendingConnect).state.pendingNodeConnections =
      [⟨some 1, some 2, true⟩] ∧
    (AudioContext.handlePostRenderTasks ⟨true⟩ onePendingConnect).state.wiring = [] := by
  decide

theorem updatePendingNodeConnections_append (g : ContextGraphLock)
    (l1 l2 : List PendingNodeConnection) (s : AudioContext) :
    updatePendingNodeConnections g s (l1 ++ l2) =
      (updatePendingNodeConnections g s l1).andThen
        (fun s1 => updatePendingNodeConnections g s1 l2) := by
  induction l1 generalizing s with
  | nil => rfl
  | cons i rest ih =>
    simp only [List.cons_append, updatePendingNodeConnections]
    cases updatePendingNodeConnection g s i with
    | done s1 => simpa [Outcome.andThen] using ih s1
    | fault f s1 => rfl

theorem andThen_fault_of_right (o : Outcome) (k : AudioContext → Outcome)
    (hk : ∀ s, (k s).fault? ≠ none) : (o.andThen k).fault? ≠ none := by
  cases o with
  | done s => exact hk s
  | fault f s => simp [Outcome.andThen, Outcome.fault?]

theorem andThen_fault_of_left (o : Outcome) (k : AudioContext → Outcome)
    (ho : o.fault? ≠ none) : (o.andThen k).fault? ≠ none := by
  cases o with
  | done s => simp [Outcome.fault?] at ho
  | fault f s => simp [Outcome.andThen, Outcome.fault?]

/-- C3 (code at the failing input): connect 1 to 2, update, disconnect 1 from 2, update,
on a fresh context. Both updates complete, and the connection from output 0 of node 1 into
input 0 of node 2 that the connect created is still there: the wiring is not what it was
before the connect. -/
theorem connect_then_disconnect_keeps_edge :
    (AudioContext.update ⟨true⟩ (AudioContext.connect (AudioContext.fresh false) 1 2)).fault?
      = none ∧
    (AudioContext.update ⟨true⟩ (AudioContext.connect (AudioContext.fresh false) 1 2)).state.wiring
      = [(⟨2, 0⟩, ⟨1, 0⟩)] ∧
    (AudioContext.update ⟨true⟩ (AudioContext.disconnect
      (AudioContext.update ⟨true⟩
        (AudioContext.connect (AudioContext.fresh false) 1 2)).state 1 2)).fault? = none ∧
    (AudioContext.update ⟨true⟩ (AudioContext.disconnect
      (AudioContext.update ⟨true⟩
        (AudioContext.connect (AudioContext.fresh false) 1 2)).state 1 2)).state.wiring
      = [(⟨2, 0⟩, ⟨1, 0⟩)] ∧
    (AudioContext.update ⟨true⟩ (AudioContext.disconnect
      (AudioContext.update ⟨true⟩
        (AudioContext.connect (AudioContext.fresh false) 1 2)).state 1 2)).state.wiring
      ≠ (AudioContext.fresh false).wiring := by
  decide

/-- C4 (code at the failing input): after the one-argument `disconnect(N)` the next
`update` never completes, whatever the state and the lock; on a fresh context it stops at
the dereference of the empty target handle, in the explicit-target branch, after it has
decremented the reference count of `N`. -/
theorem update_after_disconnectAll_faults (g : ContextGraphLock) (s : AudioContext) (N : Node) :
    (AudioContext.update g (AudioContext.disconnectAll s N)).fault? ≠ none ∧
    (AudioContext.update ⟨true⟩ (AudioContext.disconnectAll (AudioContext.fresh false) N)).fault?
      = some Fault.nullDereference ∧
    ((AudioContext.update ⟨true⟩
      (AudioContext.disconnectAll (AudioContext.fresh false) N)).state.connectionRefCount
        N).val = -1 ∧
    (AudioContext.update ⟨true⟩
      (AudioContext.disconnectAll (AudioContext.fresh false) N)).state.externalCalls = [] := by
  refine ⟨?_, ?_, ?_, ?_⟩
  · unfold AudioContext.update
    simp only [foldl_updatePendingConnection_pendingNode]
    apply andThen_fault_of_left
    have hq : (AudioContext.disconnectAll s N).pendingNodeConnections =
        s.pendingNodeConnections ++ [⟨some N, none, false⟩] := rfl
    rw [hq, updatePendingNodeConnections_append]
    apply andThen_fault_of_right
    intro s1
    simp [updatePendingNodeConnections, updatePendingNodeConnection, Outcome.andThen,
      Outcome.fault?]
  · simp [AudioContext.update, AudioContext.disconnectAll, AudioContext.fresh,
      updatePendingNodeConnections, updatePendingNodeConnection, Outcome.andThen, Outcome.fault?]
  · simp only [AudioContext.update, AudioContext.disconnectAll, AudioContext.fresh,
      updatePendingNodeConnections, updatePendingNodeConnection, Outcome.andThen, Outcome.state,
      atomicDecrement, List.foldl_nil, List.nil_append, if_true, Bool.false_eq_true, if_false]
    decide
  · simp [AudioContext.update, AudioContext.disconnectAll, AudioContext.fresh,
      updatePendingNodeConnections, updatePendingNodeConnection, Outcome.andThen, Outcome.state,
      atomicDecrement]

theorem disconnect_filter_of_no_edge (w : Wiring) (A B : Node)
    (he : edgeBetween w A B = false) :
    AudioNodeInput.disconnect w (some ⟨A, 0⟩) (some ⟨B, 0⟩) = w := by
  unfold AudioNodeInput.disconnect
  rw [List.filter_eq_self]
  intro e hmem
  simp only [edgeBetween, List.any_eq_false] at he
  have h1 := he e hmem
  simp only [decide_eq_true_eq]
  intro heq
  apply h1
  subst heq
  simp

theorem atomicDecrement_pair_val (s : AudioContext) (A B n : Node) :
    ((atomicDecrement (atomicDecrement s A) B).connectionRefCount n).val =
      wrapInt ((s.connectionRefCount n).val - (if n = A then 1 else 0)
        - (if n = B then 1 else 0)) := by
  have h := (s.connectionRefCount n).property
  simp only [atomicDecrement]
  split_ifs <;> (try simp only [ofInt_val]) <;> unfold wrapInt <;> omega

theorem atomicIncrement_pair_val (s : AudioContext) (A B n : Node) :
    ((atomicIncrement (atomicIncrement s A) B).connectionRefCount n).val =
      wrapInt ((s.connectionRefCount n).val + (if n = A then 1 else 0)
        + (if n = B then 1 else 0)) := by
  have h := (s.connectionRefCount n).property
  simp only [atomicIncrement]
  split_ifs <;> (try simp only [ofInt_val]) <;> unfold wrapInt <;> omega

/-- C5 (amended): when no connection joins `A` and `B`, a node-level `disconnect(A, B)`
applied by `update` raises no error and leaves the wiring unchanged, but it still
decrements the reference counts of `A` and of `B` as machine ints (one less, wrapping below
-2147483648) and erases the first Reference Set entry of `A` and of `B`, and calls
`disableOutputsIfNecessary` on both. This is the effect of the loop body of `update` on
every state, and of `update` as a whole when nothing else is pending and no node has
finished. -/
theorem disconnect_without_edge (g : ContextGraphLock) (s : AudioContext) (A B : Node)
    (hg : g.context = true) (he : edgeBetween s.wiring A B = false) :
    ∃ s1, updatePendingNodeConnection g s ⟨some A, some B, false⟩ = Outcome.done s1 ∧
      (s.pendingConnections = [] → s.pendingNodeConnections = [] → s.m_finishedNodes = [] →
        AudioContext.update g (AudioContext.disconnect s A B) = Outcome.done s1) ∧
      s1.wiring = s.wiring ∧
      s1.m_referencedNodes = (s.m_referencedNodes.erase A).erase B ∧
      (∀ n, (s1.connectionRefCount n).val =
        wrapInt ((s.connectionRefCount n).val - (if n = A then 1 else 0)
          - (if n = B then 1 else 0))) ∧
      (∀ n, -2147483648 ≤ (s.connectionRefCount n).val - (if n = A then 1 else 0)
          - (if n = B then 1 else 0) →
        (s1.connectionRefCount n).val =
          (s.connectionRefCount n).val - (if n = A then 1 else 0)
            - (if n = B then 1 else 0)) ∧
      s1.externalCalls = s.externalCalls ++
        [ExternalCall.disableOutputsIfNecessary A, ExternalCall.disableOutputsIfNecessary B] := by
  have hw := disconnect_filter_of_no_edge s.wiring A B he
  have hcount : (updatePendingNodeConnection g s ⟨some A, some B, false⟩).state.connectionRefCount
      = (atomicDecrement (atomicDecrement s A) B).connectionRefCount := by
    simp [updatePendingNodeConnection, Outcome.andThen, Outcome.state, hg,
      AudioContext.dereferenceSourceNode, callExternal]
  refine ⟨(updatePendingNodeConnection g s ⟨some A, some B, false⟩).state,
    ?_, ?_, ?_, ?_, ?_, ?_, ?_⟩
  · simp [updatePendingNodeConnection, Outcome.andThen, Outcome.state, hg,
      AudioContext.dereferenceSourceNode]
  · intro hp hn hf
    cases s
    simp only at hp hn hf hw
    subst hp hn hf
    simp [AudioContext.update, AudioContext.disconnect, updatePendingNodeConnections,
      updatePendingNodeConnection, Outcome.andThen, Outcome.state,
      AudioContext.derefFinishedSourceNodes, derefFinishedLoop, hg,
      AudioContext.dereferenceSourceNode, atomicDecrement, callExternal, hw]
  · simpa [updatePendingNodeConnection, Outcome.andThen, Outcome.state, hg,
      AudioContext.dereferenceSourceNode, atomicDecrement, callExternal] using hw
  · simp [updatePendingNodeConnection, Outcome.andThen, Outcome.state, hg,
      AudioContext.dereferenceSourceNode, atomicDecrement, callExternal]
  · intro n
    rw [hcount]
    exact atomicDecrement_pair_val s A B n
  · intro n hlow
    rw [hcount, atomicDecrement_pair_val s A B n]
    have h := (s.connectionRefCount n).property
    apply wrapInt_of_range
    constructor
    · exact hlow
    · split_ifs <;> omega
  · simp [updatePendingNodeConnection, Outcome.andThen, Outcome.state, hg,
      AudioContext.dereferenceSourceNode, atomicDecrement, callExternal]

/-- C5 (witness): disconnecting 1 from 2 where each only feeds node 3. -/
theorem disconnect_without_edge_witness :
    (⟨true⟩ : ContextGraphLock).context = true ∧
    edgeBetween twoSourcesIntoThree.wiring 1 2 = false ∧
    twoSourcesIntoThree.pendingConnections = [] ∧
    twoSourcesIntoThree.pendingNodeConnections = [] ∧
    twoSourcesIntoThree.m_finishedNodes = [] ∧
    ∃ s1, updatePendingNodeConnection ⟨true⟩ twoSourcesIntoThree ⟨some 1, some 2, false⟩
        = Outcome.done s1 ∧
      (twoSourcesIntoThree.pendingConnections = [] →
        twoSourcesIntoThree.pendingNodeConnections = [] →
        twoSourcesIntoThree.m_finishedNodes = [] →
        AudioContext.update ⟨true⟩ (AudioContext.disconnect twoSourcesIntoThree 1 2)
          = Outcome.done s1) ∧
      s1.wiring = twoSourcesIntoThree.wiring ∧
      s1.m_referencedNodes = (twoSourcesIntoThree.m_referencedNodes.erase 1).erase 2 ∧
      (∀ n, (s1.connectionRefCount n).val =
        wrapInt ((twoSourcesIntoThree.connectionRefCount n).val - (if n = 1 then 1 else 0)
          - (if n = 2 then 1 else 0))) ∧
      (∀ n, -2147483648 ≤ (twoSourcesIntoThree.connectionRefCount n).val
          - (if n = 1 then 1 else 0) - (if n = 2 then 1 else 0) →
        (s1.connectionRefCount n).val =
          (twoSourcesIntoThree.connectionRefCount n).val - (if n = 1 then 1 else 0)
            - (if n = 2 then 1 else 0)) ∧
      s1.externalCalls = twoSourcesIntoThree.externalCalls ++
        [ExternalCall.disableOutputsIfNecessary 1, ExternalCall.disableOutputsIfNecessary 2] :=
  ⟨rfl, by decide, rfl, rfl, rfl,
    disconnect_without_edge ⟨true⟩ twoSourcesIntoThree 1 2 rfl (by decide)⟩

/-- C5 (counterexample): nodes 1 and 2 each feed node 3 and are referenced for that; no
connection joins 1 and 2. A `disconnect(1, 2)` applied by `update` completes, leaves the
wiring alone, yet drops the Reference Set entries of 1 and 2 and lowers both counts. -/
theorem disconnect_without_edge_changes_bookkeeping :
    edgeBetween twoSourcesIntoThree.wiring 1 2 = false ∧
    twoSourcesIntoThree.m_referencedNodes = [1, 3, 2, 3] ∧
    (twoSourcesIntoThree.connectionRefCount 1).val = 1 ∧
    (twoSourcesIntoThree.connectionRefCount 2).val = 1 ∧
    (AudioContext.update ⟨true⟩ (AudioContext.disconnect twoSourcesIntoThree 1 2)).fault?
      = none ∧
    (AudioContext.update ⟨true⟩ (AudioContext.disconnect twoSourcesIntoThree 1 2)).state.wiring
      = twoSourcesIntoThree.wiring ∧
    (AudioContext.update ⟨true⟩
      (AudioContext.disconnect twoSourcesIntoThree 1 2)).state.m_referencedNodes = [3, 3] ∧
    ((AudioContext.update ⟨true⟩
      (AudioContext.disconnect twoSourcesIntoThree 1 2)).state.connectionRefCount 1).val = 0 ∧
    ((AudioContext.update ⟨true⟩
      (AudioContext.disconnect twoSourcesIntoThree 1 2)).state.connectionRefCount 2).val = 0 := by
  decide

theorem mem_connect_iff (w : Wiring) (i : AudioNodeInput) (o : AudioNodeOutput)
    (e : AudioNodeInput × AudioNodeOutput) :
    e ∈ AudioNodeInput.connect w (some i) (some o) ↔ e = (i, o) ∨ e ∈ w := by
  show (e ∈ if (i, o) ∈ w then w else w ++ [(i, o)]) ↔ e = (i, o) ∨ e ∈ w
  by_cases hmem : (i, o) ∈ w
  · rw [if_pos hmem]
    constructor
    · intro h; exact Or.inr h
    · rintro (h | h)
      · rw [h]; exact hmem
      · exact h
  · rw [if_neg hmem]
    simp [or_comm]

/-- C6 (amended): one node-level `connect(A, B)` applied by `update`, for distinct `A` and
`B`, completes, puts the connection from output 0 of `A` into input 0 of `B` in the wiring
and changes no other connection, appends exactly one Reference Set entry for `A` and one
for `B`, and calls `enableOutputsIfNecessary` on `A` and on `B`. The reference counts of
`A` and of `B` go up by one as machine ints: by exactly one while the count is below
2147483647, and from 2147483647 to -2147483648; no other count changes. This is the effect
of the loop body of `update` on every state and under every lock, and of `update` as a
whole when nothing else is pending and no node has finished. -/
theorem connect_applied (g : ContextGraphLock) (s : AudioContext) (A B : Node) (hAB : A ≠ B) :
    ∃ s1, updatePendingNodeConnection g s ⟨some A, some B, true⟩ = Outcome.done s1 ∧
      (g.context = true → s.pendingConnections = [] → s.pendingNodeConnections = [] →
        s.m_finishedNodes = [] →
        AudioContext.update g (AudioContext.connect s A B) = Outcome.done s1) ∧
      ((⟨B, 0⟩, ⟨A, 0⟩) ∈ s1.wiring ∧
        ∀ e, e ≠ ((⟨B, 0⟩, ⟨A, 0⟩) : AudioNodeInput × AudioNodeOutput) →
          (e ∈ s1.wiring ↔ e ∈ s.wiring)) ∧
      s1.m_referencedNodes = s.m_referencedNodes ++ [A, B] ∧
      (s1.m_referencedNodes.count A = s.m_referencedNodes.count A + 1 ∧
        s1.m_referencedNodes.count B = s.m_referencedNodes.count B + 1 ∧
        ∀ n, n ≠ A → n ≠ B → s1.m_referencedNodes.count n = s.m_referencedNodes.count n) ∧
      ((s1.connectionRefCount A).val = wrapInt ((s.connectionRefCount A).val + 1) ∧
        (s1.connectionRefCount B).val = wrapInt ((s.connectionRefCount B).val + 1) ∧
        ((s.connectionRefCount A).val < 2147483647 →
          (s1.connectionRefCount A).val = (s.connectionRefCount A).val + 1) ∧
        ((s.connectionRefCount B).val < 2147483647 →
          (s1.connectionRefCount B).val = (s.connectionRefCount B).val + 1) ∧
        ((s.connectionRefCount A).val = 2147483647 →
          (s1.connectionRefCount A).val = -2147483648) ∧
        ((s.connectionRefCount B).val = 2147483647 →
          (s1.connectionRefCount B).val = -2147483648) ∧
        ∀ n, n ≠ A → n ≠ B → s1.connectionRefCount n = s.connectionRefCount n) ∧
      s1.externalCalls = s.externalCalls ++
        [ExternalCall.enableOutputsIfNecessary A, ExternalCall.enableOutputsIfNecessary B] := by
  have hBA : ¬ B = A := fun h => hAB h.symm
  have hcount : (updatePendingNodeConnection g s ⟨some A, some B, true⟩).state.connectionRefCount
      = (atomicIncrement (atomicIncrement s A) B).connectionRefCount := by
    simp [updatePendingNodeConnection, Outcome.state, AudioContext.referenceSourceNode,
      atomicIncrement, callExternal]
  have hA := atomicIncrement_pair_val s A B A
  have hB := atomicIncrement_pair_val s A B B
  simp only [if_true, if_neg hAB, if_neg hBA, add_zero, zero_add] at hA hB
  have hpA := (s.connectionRefCount A).property
  have hpB := (s.connectionRefCount B).property
  refine ⟨(updatePendingNodeConnection g s ⟨some A, some B, true⟩).state, ?_, ?_,
    ⟨?_, ?_⟩, ?_, ⟨?_, ?_, ?_⟩, ⟨?_, ?_, ?_, ?_, ?_, ?_, ?_⟩, ?_⟩
  · simp [updatePendingNodeConnection, Outcome.state]
  · intro hg hp hn hf
    cases s
    simp only at hp hn hf
    subst hp hn hf
    simp [AudioContext.update, AudioContext.connect, updatePendingNodeConnections,
      updatePendingNodeConnection, Outcome.andThen, Outcome.state,
      AudioContext.derefFinishedSourceNodes, derefFinishedLoop, hg,
      AudioContext.referenceSourceNode, atomicIncrement, callExternal]
  · simp only [updatePendingNodeConnection, Outcome.state, AudioContext.referenceSourceNode,
      atomicIncrement, callExternal, if_true]
    rw [mem_connect_iff]; exact Or.inl rfl
  · intro e hne
    simp only [updatePendingNodeConnection, Outcome.state, AudioContext.referenceSourceNode,
      atomicIncrement, callExternal, if_true]
    rw [mem_connect_iff]
    constructor
    · rintro (h | h)
      · exact absurd h hne
      · exact h
    · intro h; exact Or.inr h
  · simp [updatePendingNodeConnection, Outcome.state, AudioContext.referenceSourceNode,
      atomicIncrement, callExternal]
  · simp [updatePendingNodeConnection, Outcome.state, AudioContext.referenceSourceNode,
      atomicIncrement, callExternal, List.count_cons, hAB]
  · simp [updatePendingNodeConnection, Outcome.state, AudioContext.referenceSourceNode,
      atomicIncrement, callExternal, List.count_cons, hAB]
  · intro n h1 h2
    simp [updatePendingNodeConnection, Outcome.state, AudioContext.referenceSourceNode,
      atomicIncrement, callExternal, List.count_cons, Ne.symm h1, Ne.symm h2]
  · rw [hcount]; exact hA
  · rw [hcount]; exact hB
  · intro hlt
    rw [hcount, hA]
    exact wrapInt_of_range _ ⟨by omega, by omega⟩
  · intro hlt
    rw [hcount, hB]
    exact wrapInt_of_range _ ⟨by omega, by omega⟩
  · intro hmax
    rw [hcount, hA, hmax]
    decide
  · intro hmax
    rw [hcount, hB, hmax]
    decide
  · intro n h1 h2
    rw [hcount]
    simp [atomicIncrement, h1, h2]
  · simp [updatePendingNodeConnection, Outcome.state, AudioContext.referenceSourceNode,
      atomicIncrement, callExternal]

/-- C6 (witness): connecting 1 to 2 on a fresh context. -/
theorem connect_applied_witness :
    (1 : Node) ≠ 2 ∧
    (⟨true⟩ : ContextGraphLock).context = true ∧
    (AudioContext.fresh false).pendingConnections = [] ∧
    (AudioContext.fresh false).pendingNodeConnections = [] ∧
    (AudioContext.fresh false).m_finishedNodes = [] ∧
    ((AudioContext.fresh false).connectionRefCount 1).val < 2147483647 ∧
    ∃ s1, updatePendingNodeConnection ⟨true⟩ (AudioContext.fresh false) ⟨some 1, some 2, true⟩
        = Outcome.done s1 ∧
      ((⟨true⟩ : ContextGraphLock).context = true →
        (AudioContext.fresh false).pendingConnections = [] →
        (AudioContext.fresh false).pendingNodeConnections = [] →
        (AudioContext.fresh false).m_finishedNodes = [] →
        AudioContext.update ⟨true⟩ (AudioContext.connect (AudioContext.fresh false) 1 2)
          = Outcome.done s1) ∧
      ((⟨2, 0⟩, ⟨1, 0⟩) ∈ s1.wiring ∧
        ∀ e, e ≠ ((⟨2, 0⟩, ⟨1, 0⟩) : AudioNodeInput × AudioNodeOutput) →
          (e ∈ s1.wiring ↔ e ∈ (AudioContext.fresh false).wiring)) ∧
      s1.m_referencedNodes = (AudioContext.fresh false).m_referencedNodes ++ [1, 2] ∧
      (s1.m_referencedNodes.count 1 = (AudioContext.fresh false).m_referencedNodes.count 1 + 1 ∧
        s1.m_referencedNodes.count 2 =
          (AudioContext.fresh false).m_referencedNodes.count 2 + 1 ∧
        ∀ n, n ≠ 1 → n ≠ 2 → s1.m_referencedNodes.count n =
          (AudioContext.fresh false).m_referencedNodes.count n) ∧
      ((s1.connectionRefCount 1).val =
          wrapInt (((AudioContext.fresh false).connectionRefCount 1).val + 1) ∧
        (s1.connectionRefCount 2).val =
          wrapInt (((AudioContext.fresh false).connectionRefCount 2).val + 1) ∧
        (((AudioContext.fresh false).connectionRefCount 1).val < 2147483647 →
          (s1.connectionRefCount 1).val =
            ((AudioContext.fresh false).connectionRefCount 1).val + 1) ∧
        (((AudioContext.fresh false).connectionRefCount 2).val < 2147483647 →
          (s1.connectionRefCount 2).val =
            ((AudioContext.fresh false).connectionRefCount 2).val + 1) ∧
        (((AudioContext.fresh false).connectionRefCount 1).val = 2147483647 →
          (s1.connectionRefCount 1).val = -2147483648) ∧
        (((AudioContext.fresh false).connectionRefCount 2).val = 2147483647 →
          (s1.connectionRefCount 2).val = -2147483648) ∧
        ∀ n, n ≠ 1 → n ≠ 2 →
          s1.connectionRefCount n = (AudioContext.fresh false).connectionRefCount n) ∧
      s1.externalCalls = (AudioContext.fresh false).externalCalls ++
        [ExternalCall.enableOutputsIfNecessary 1, ExternalCall.enableOutputsIfNecessary 2] :=
  ⟨by decide, rfl, rfl, rfl, rfl, by decide,
    connect_applied ⟨true⟩ (AudioContext.fresh false) 1 2 (by decide)⟩

/-- C6 (counterexample): the reference count of node 1 stands at 2147483647. A
`connect(1, 2)` applied by `update` completes and leaves the count of node 1 at
-2147483648, which is not one more than before. -/
theorem connect_wraps_count_at_int_max :
    (countAtIntMax.connectionRefCount 1).val = 2147483647 ∧
    (AudioContext.update ⟨true⟩ (AudioContext.connect countAtIntMax 1 2)).fault? = none ∧
    ((AudioContext.update ⟨true⟩
      (AudioContext.connect countAtIntMax 1 2)).state.connectionRefCount 1).val
      = -2147483648 ∧
    ((AudioContext.update ⟨true⟩
      (AudioContext.connect countAtIntMax 1 2)).state.connectionRefCount 1).val
      ≠ (countAtIntMax.connectionRefCount 1).val + 1 := by
  decide

theorem erase_erase_append_pair_perm (l : List Node) (A B : Node) :
    (((l ++ [A, B]).erase A).erase B).Perm l := by
  have h1 : (l ++ [A, B]).Perm (A :: B :: l) := List.perm_append_comm
  have h2 : ((l ++ [A, B]).erase A).Perm (B :: l) := by
    have := h1.erase A
    simpa using this
  have h3 := h2.erase B
  simpa using h3

/-- C7: applying `connect(A, B)` and then `disconnect(A, B)` through `update` restores the
bookkeeping, for every state and all nodes `A`, `B`: the two loop steps complete, every
reference count is what it was before the connect, and the Reference Set holds every node
as many times as before (a permutation of the old list). When nothing else is pending and
no node has finished the same holds of `connect; update; disconnect; update` and of one
`update` that applies both requests. -/
theorem connect_then_disconnect_restores_bookkeeping (g : ContextGraphLock) (s : AudioContext)
    (A B : Node) (hg : g.context = true) :
    (∃ s2, updatePendingNodeConnections g s
        [⟨some A, some B, true⟩, ⟨some A, some B, false⟩] = Outcome.done s2 ∧
      s2.connectionRefCount = s.connectionRefCount ∧
      s2.m_referencedNodes.Perm s.m_referencedNodes ∧
      ∀ n, s2.m_referencedNodes.count n = s.m_referencedNodes.count n) ∧
    (s.pendingNodeConnections = [] → s.m_finishedNodes = [] →
      ∃ s1 s2, AudioContext.update g (AudioContext.connect s A B) = Outcome.done s1 ∧
        AudioContext.update g (AudioContext.disconnect s1 A B) = Outcome.done s2 ∧
        s2.connectionRefCount = s.connectionRefCount ∧
        s2.m_referencedNodes.Perm s.m_referencedNodes ∧
        ∀ n, s2.m_referencedNodes.count n = s.m_referencedNodes.count n) ∧
    (s.pendingNodeConnections = [] → s.m_finishedNodes = [] →
      ∃ s3, AudioContext.update g (AudioContext.disconnect (AudioContext.connect s A B) A B)
          = Outcome.done s3 ∧
        s3.connectionRefCount = s.connectionRefCount ∧
        s3.m_referencedNodes.Perm s.m_referencedNodes ∧
        ∀ n, s3.m_referencedNodes.count n = s.m_referencedNodes.count n) := by
  have hperm := erase_erase_append_pair_perm s.m_referencedNodes A B
  have hprop : ∀ m, -2147483648 ≤ (s.connectionRefCount m).val ∧
      (s.connectionRefCount m).val < 2147483648 := fun m => (s.connectionRefCount m).property
  refine ⟨?_, ?_, ?_⟩
  · simp [updatePendingNodeConnections,
      updatePendingNodeConnection, Outcome.andThen, hg, AudioContext.referenceSourceNode,
      AudioContext.dereferenceSourceNode, atomicIncrement, atomicDecrement, callExternal]
    refine ⟨?_, hperm, fun n => hperm.count_eq n⟩
    funext m
    have hm := hprop m
    split_ifs <;> apply Subtype.ext <;> (try simp only [ofInt_val]) <;> unfold wrapInt <;> omega
  · intro hn hf
    unfold AudioContext.update
    simp only [AudioContext.connect, AudioContext.disconnect]
    rw [foldl_updatePendingConnection_eq]
    generalize (List.foldl updatePendingConnection _ _).wiring = W
    cases s
    simp only at hn hf hperm hprop
    subst hn hf
    simp [updatePendingNodeConnections,
      updatePendingNodeConnection, Outcome.andThen, AudioContext.derefFinishedSourceNodes,
      derefFinishedLoop, hg, AudioContext.referenceSourceNode, AudioContext.dereferenceSourceNode,
      atomicIncrement, atomicDecrement, callExternal, updatePendingConnection]
    refine ⟨?_, hperm, fun n => hperm.count_eq n⟩
    funext m
    have hm := hprop m
    split_ifs <;> apply Subtype.ext <;> (try simp only [ofInt_val]) <;> unfold wrapInt <;> omega
  · intro hn hf
    unfold AudioContext.update
    simp only [AudioContext.connect, AudioContext.disconnect]
    rw [foldl_updatePendingConnection_eq]
    generalize (List.foldl updatePendingConnection _ _).wiring = W
    cases s
    simp only at hn hf hperm hprop
    subst hn hf
    simp [updatePendingNodeConnections,
      updatePendingNodeConnection, Outcome.andThen, AudioContext.derefFinishedSourceNodes,
      derefFinishedLoop, hg, AudioContext.referenceSourceNode, AudioContext.dereferenceSourceNode,
      atomicIncrement, atomicDecrement, callExternal, updatePendingConnection]
    refine ⟨?_, hperm, fun n => hperm.count_eq n⟩
    funext m
    have hm := hprop m
    split_ifs <;> apply Subtype.ext <;> (try simp only [ofInt_val]) <;> unfold wrapInt <;> omega

/-- C7 (witness): the round trip on a context where 1 and 2 are already referenced. -/
theorem connect_then_disconnect_restores_bookkeeping_witness :
    (⟨true⟩ : ContextGraphLock).context = true ∧
    twoSourcesIntoThree.pendingNodeConnections = [] ∧
    twoSourcesIntoThree.m_finishedNodes = [] ∧
    (∃ s2, updatePendingNodeConnections ⟨true⟩ twoSourcesIntoThree
        [⟨some 1, some 2, true⟩, ⟨some 1, some 2, false⟩] = Outcome.done s2 ∧
      s2.connectionRefCount = twoSourcesIntoThree.connectionRefCount ∧
      s2.m_referencedNodes.Perm twoSourcesIntoThree.m_referencedNodes ∧
      ∀ n, s2.m_referencedNodes.count n = twoSourcesIntoThree.m_referencedNodes.count n) ∧
    (∃ s1 s2, AudioContext.update ⟨true⟩ (AudioContext.connect twoSourcesIntoThree 1 2)
        = Outcome.done s1 ∧
      AudioContext.update ⟨true⟩ (AudioContext.disconnect s1 1 2) = Outcome.done s2 ∧
      s2.connectionRefCount = twoSourcesIntoThree.connectionRefCount ∧
      s2.m_referencedNodes.Perm twoSourcesIntoThree.m_referencedNodes ∧
      ∀ n, s2.m_referencedNodes.count n = twoSourcesIntoThree.m_referencedNodes.count n) ∧
    (∃ s3, AudioContext.update ⟨true⟩
        (AudioContext.disconnect (AudioContext.connect twoSourcesIntoThree 1 2) 1 2)
        = Outcome.done s3 ∧
      s3.connectionRefCount = twoSourcesIntoThree.connectionRefCount ∧
      s3.m_referencedNodes.Perm twoSourcesIntoThree.m_referencedNodes ∧
      ∀ n, s3.m_referencedNodes.count n = twoSourcesIntoThree.m_referencedNodes.count n) :=
  ⟨rfl, rfl, rfl,
    (connect_then_disconnect_restores_bookkeeping ⟨true⟩ twoSourcesIntoThree 1 2 rfl).1,
    (connect_then_disconnect_restores_bookkeeping ⟨true⟩ twoSourcesIntoThree 1 2 rfl).2.1
      rfl rfl,
    (connect_then_disconnect_restores_bookkeeping ⟨true⟩ twoSourcesIntoThree 1 2 rfl).2.2
      rfl rfl⟩

/-- C9 (amended): for `N` in the Reference Set, `notifyNodeFinishedProcessing(N)` completes
and appends `N` to the Finished Set; the Reference Set is unchanged, so `N` is still in it
(its entry is removed later, by `derefFinishedSourceNodes`). -/
theorem notifyNodeFinishedProcessing_appends (r : ContextRenderLock) (s : AudioContext)
    (N : Node) (hr : r.context = true) (hN : N ∈ s.m_referencedNodes) :
    AudioContext.notifyNodeFinishedProcessing r s N =
        Outcome.done { s with m_finishedNodes := s.m_finishedNodes ++ [N] } ∧
      N ∈ (AudioContext.notifyNodeFinishedProcessing r s N).state.m_finishedNodes ∧
      (AudioContext.notifyNodeFinishedProcessing r s N).state.m_referencedNodes =
        s.m_referencedNodes ∧
      N ∈ (AudioContext.notifyNodeFinishedProcessing r s N).state.m_referencedNodes := by
  have h : AudioContext.notifyNodeFinishedProcessing r s N =
      Outcome.done { s with m_finishedNodes := s.m_finishedNodes ++ [N] } := by
    simp [AudioContext.notifyNodeFinishedProcessing, hr, hN]
  rw [h]
  exact ⟨rfl, by simp [Outcome.state], rfl, hN⟩

/-- C9 (witness): node 7, referenced once, reports that it finished. -/
theorem notifyNodeFinishedProcessing_appends_witness :
    (⟨true⟩ : ContextRenderLock).context = true ∧
    7 ∈ onlySevenReferenced.m_referencedNodes ∧
    (AudioContext.notifyNodeFinishedProcessing ⟨true⟩ onlySevenReferenced 7 =
        Outcome.done { onlySevenReferenced with
          m_finishedNodes := onlySevenReferenced.m_finishedNodes ++ [7] } ∧
      7 ∈ (AudioContext.notifyNodeFinishedProcessing ⟨true⟩
        onlySevenReferenced 7).state.m_finishedNodes ∧
      (AudioContext.notifyNodeFinishedProcessing ⟨true⟩
        onlySevenReferenced 7).state.m_referencedNodes = onlySevenReferenced.m_referencedNodes ∧
      7 ∈ (AudioContext.notifyNodeFinishedProcessing ⟨true⟩
        onlySevenReferenced 7).state.m_referencedNodes) :=
  ⟨rfl, by decide,
    notifyNodeFinishedProcessing_appends ⟨true⟩ onlySevenReferenced 7 rfl (by decide)⟩

/-- C9 (counterexample): after `notifyNodeFinishedProcessing(7)` node 7 is in the Finished
Set and still in the Reference Set. -/
theorem notifyNodeFinishedProcessing_keeps_reference :
    7 ∈ onlySevenReferenced.m_referencedNodes ∧
    (AudioContext.notifyNodeFinishedProcessing ⟨true⟩ onlySevenReferenced 7).fault? = none ∧
    (AudioContext.notifyNodeFinishedProcessing ⟨true⟩
      onlySevenReferenced 7).state.m_finishedNodes = [7] ∧
    ¬ (7 ∉ (AudioContext.notifyNodeFinishedProcessing ⟨true⟩
      onlySevenReferenced 7).state.m_referencedNodes) := by
  decide

/-- C10: with a valid render lock, `markForDeletion(N)` trips the assertion "Attempting to
delete unreferenced node" exactly when `N` is not in the Reference Set. When it trips, the
state is unchanged. When it does not, the call completes, exactly one entry for `N` is
appended to the marked-for-deletion list, and the Reference Set, Finished Set and Deletion
Set are unchanged. -/
theorem markForDeletion_contract (r : ContextRenderLock) (s : AudioContext) (N : Node)
    (hr : r.context = true) :
    ((AudioContext.markForDeletion r s N).fault? = some Fault.assertDeleteUnreferencedNode ↔
      N ∉ s.m_referencedNodes) ∧
    (N ∉ s.m_referencedNodes →
      AudioContext.markForDeletion r s N = Outcome.fault Fault.assertDeleteUnreferencedNode s) ∧
    (N ∈ s.m_referencedNodes →
      AudioContext.markForDeletion r s N =
          Outcome.done { s with m_nodesMarkedForDeletion := s.m_nodesMarkedForDeletion ++ [N] } ∧
        (AudioContext.markForDeletion r s N).state.m_nodesMarkedForDeletion =
          s.m_nodesMarkedForDeletion ++ [N] ∧
        (AudioContext.markForDeletion r s N).state.m_referencedNodes = s.m_referencedNodes ∧
        (AudioContext.markForDeletion r s N).state.m_finishedNodes = s.m_finishedNodes ∧
        (AudioContext.markForDeletion r s N).state.m_nodesToDelete = s.m_nodesToDelete) := by
  by_cases hN : N ∈ s.m_referencedNodes
  · have h : AudioContext.markForDeletion r s N =
        Outcome.done { s with m_nodesMarkedForDeletion := s.m_nodesMarkedForDeletion ++ [N] } := by
      simp [AudioContext.markForDeletion, hr, hN]
    rw [h]
    simp [Outcome.fault?, Outcome.state, hN]
  · have h : AudioContext.markForDeletion r s N =
        Outcome.fault Fault.assertDeleteUnreferencedNode s := by
      simp [AudioContext.markForDeletion, hr, hN]
    rw [h]
    simp [Outcome.fault?, hN]

/-- C10 (witness): marking node 7, which is referenced, and node 8, which is not. -/
theorem markForDeletion_contract_witness :
    (⟨true⟩ : ContextRenderLock).context = true ∧
    7 ∈ onlySevenReferenced.m_referencedNodes ∧ 8 ∉ onlySevenReferenced.m_referencedNodes ∧
    (AudioContext.markForDeletion ⟨true⟩ onlySevenReferenced 7).state.m_nodesMarkedForDeletion
      = onlySevenReferenced.m_nodesMarkedForDeletion ++ [7] ∧
    AudioContext.markForDeletion ⟨true⟩ onlySevenReferenced 8 =
      Outcome.fault Fault.assertDeleteUnreferencedNode onlySevenReferenced :=
  ⟨rfl, by decide, by decide,
    ((markForDeletion_contract ⟨true⟩ onlySevenReferenced 7 rfl).2.2 (by decide)).2.1,
    (markForDeletion_contract ⟨true⟩ onlySevenReferenced 8 rfl).2.1 (by decide)⟩

theorem clearBody_eq (s : AudioContext) :
    clearBody s = { s with m_nodesToDelete := s.m_nodesMarkedForDeletion,
                           m_isDeletionScheduled := false,
                           m_nodesMarkedForDeletion := [] } := by
  simp [clearBody, AudioContext.deleteMarkedNodes]

theorem clearLoop_two_passes (fuel : Nat) (s : AudioContext) :
    clearLoop (fuel + 2) s =
      some ({ s with m_nodesToDelete := [], m_isDeletionScheduled := false,
                     m_nodesMarkedForDeletion := [] },
        if s.m_nodesMarkedForDeletion = [] then 1 else 2) := by
  by_cases h : s.m_nodesMarkedForDeletion = []
  · simp [clearLoop, clearBody_eq, h]
  · simp [clearLoop, clearBody_eq, h]

theorem clear_eq (s : AudioContext) :
    AudioContext.clear s =
      { s with m_nodesToDelete := [], m_isDeletionScheduled := false,
               m_nodesMarkedForDeletion := [] } := by
  unfold AudioContext.clear
  rw [clearLoop_two_passes 0 s]

/-- C20: the do-while loop of `AudioContext::clear` exits after one pass when nothing is
marked and after two passes otherwise, whatever the lists hold: every bound of at least
two passes yields the same exit state. At exit the marked-for-deletion list and the
Deletion Set are empty and the deletion-scheduled flag is cleared; the Reference Set, the
Finished Set and the Automatic Pull Set are unchanged. One pass is not always enough. -/
theorem clear_terminates_within_two_passes (s : AudioContext) (fuel : Nat) :
    (∃ t k, clearLoop (fuel + 2) s = some (t, k) ∧ k ≤ 2 ∧ AudioContext.clear s = t ∧
      t.m_nodesMarkedForDeletion = [] ∧ t.m_nodesToDelete = [] ∧
      t.m_isDeletionScheduled = false ∧
      t.m_referencedNodes = s.m_referencedNodes ∧ t.m_finishedNodes = s.m_finishedNodes ∧
      t.m_automaticPullNodes = s.m_automaticPullNodes) ∧
    (s.m_nodesMarkedForDeletion ≠ [] → clearLoop 1 s = none) := by
  constructor
  · refine ⟨_, _, clearLoop_two_passes fuel s, ?_, clear_eq s, rfl, rfl, rfl, rfl, rfl, rfl⟩
    split <;> decide
  · intro h
    simp [clearLoop, clearBody_eq, h]

/-- C20 (witness): with node 7 marked the loop needs its second pass. -/
theorem clear_terminates_within_two_passes_witness :
    sevenMarkedForDeletion.m_nodesMarkedForDeletion ≠ [] ∧
    clearLoop 1 sevenMarkedForDeletion = none ∧
    ∃ t k, clearLoop (0 + 2) sevenMarkedForDeletion = some (t, k) ∧ k ≤ 2 ∧
      AudioContext.clear sevenMarkedForDeletion = t ∧
      t.m_nodesMarkedForDeletion = [] ∧ t.m_nodesToDelete = [] ∧
      t.m_isDeletionScheduled = false ∧
      t.m_referencedNodes = sevenMarkedForDeletion.m_referencedNodes ∧
      t.m_finishedNodes = sevenMarkedForDeletion.m_finishedNodes ∧
      t.m_automaticPullNodes = sevenMarkedForDeletion.m_automaticPullNodes :=
  ⟨by decide,
    (clear_terminates_within_two_passes sevenMarkedForDeletion 0).2 (by decide),
    (clear_terminates_within_two_passes sevenMarkedForDeletion 0).1⟩

theorem derefFinishedLoop_state_of (P : AudioContext → Prop) (g : ContextGraphLock)
    (hstep : ∀ s n, P s → P (AudioContext.dereferenceSourceNode g s n).state)
    (l : List Node) (s : AudioContext) (h : P s) : P (derefFinishedLoop g s l).state := by
  induction l generalizing s with
  | nil => exact h
  | cons n rest ih =>
    simp only [derefFinishedLoop]
    exact andThen_state_of P _ _ (hstep s n h) ih

theorem updatePendingNodeConnections_state_of (P : AudioContext → Prop) (g : ContextGraphLock)
    (hstep : ∀ s i, P s → P (updatePendingNodeConnection g s i).state)
    (l : List PendingNodeConnection) (s : AudioContext) (h : P s) :
    P (updatePendingNodeConnections g s l).state := by
  induction l generalizing s with
  | nil => exact h
  | cons i rest ih =>
    simp only [updatePendingNodeConnections]
    exact andThen_state_of P _ _ (hstep s i h) ih

theorem dereferenceSourceNode_nodesToDelete (g : ContextGraphLock) (s : AudioContext)
    (n : Node) :
    (AudioContext.dereferenceSourceNode g s n).state.m_nodesToDelete = s.m_nodesToDelete := by
  unfold AudioContext.dereferenceSourceNode
  split <;> rfl

theorem updatePendingNodeConnection_nodesToDelete (g : ContextGraphLock) (s : AudioContext)
    (i : PendingNodeConnection) :
    (updatePendingNodeConnection g s i).state.m_nodesToDelete = s.m_nodesToDelete := by
  obtain ⟨f, t0, c⟩ := i
  cases hg : g.context <;> cases c <;> cases f <;> cases t0 <;>
    simp [updatePendingNodeConnection, Outcome.state, Outcome.andThen,
      AudioContext.dereferenceSourceNode, AudioContext.referenceSourceNode, atomicIncrement,
      atomicDecrement, callExternal, hg]

theorem derefFinishedSourceNodes_nodesToDelete_nil (g : ContextGraphLock) (s : AudioContext)
    (h : s.m_nodesToDelete = []) :
    (AudioContext.derefFinishedSourceNodes g s).state.m_nodesToDelete = [] := by
  unfold AudioContext.derefFinishedSourceNodes
  split
  · exact h
  · refine andThen_state_of (fun t => t.m_nodesToDelete = []) _ _ ?_ ?_
    · refine derefFinishedLoop_state_of (fun t => t.m_nodesToDelete = []) g ?_ _ s h
      intro t n ht
      exact (dereferenceSourceNode_nodesToDelete g t n).trans ht
    · intro t ht
      exact ht

theorem update_nodesToDelete_nil (g : ContextGraphLock) (s : AudioContext)
    (h : s.m_nodesToDelete = []) : (AudioContext.update g s).state.m_nodesToDelete = [] := by
  unfold AudioContext.update
  simp only
  rw [foldl_updatePendingConnection_eq]
  refine andThen_state_of (fun t => t.m_nodesToDelete = []) _ _ ?_ ?_
  · refine updatePendingNodeConnections_state_of (fun t => t.m_nodesToDelete = []) g ?_ _ _ h
    intro t i ht
    exact (updatePendingNodeConnection_nodesToDelete g t i).trans ht
  · intro t ht
    exact derefFinishedSourceNodes_nodesToDelete_nil g _ ht

theorem scheduleNodeDeletion_nodesToDelete_nil (r : ContextRenderLock) (s : AudioContext)
    (h : s.m_nodesToDelete = []) :
    (AudioContext.scheduleNodeDeletion r s).state.m_nodesToDelete = [] := by
  unfold AudioContext.scheduleNodeDeletion
  split
  · exact h
  · split
    · rfl
    · exact h

theorem updateAutomaticPullNodes_nodesToDelete (s : AudioContext) :
    (AudioContext.updateAutomaticPullNodes s).m_nodesToDelete = s.m_nodesToDelete := by
  unfold AudioContext.updateAutomaticPullNodes
  split <;> rfl

theorem handlePostRenderTasks_nodesToDelete_nil (r : ContextRenderLock) (s : AudioContext)
    (h : s.m_nodesToDelete = []) :
    (AudioContext.handlePostRenderTasks r s).state.m_nodesToDelete = [] := by
  unfold AudioContext.handlePostRenderTasks
  split
  · exact h
  · refine andThen_state_of (fun t => t.m_nodesToDelete = []) _ _
      (scheduleNodeDeletion_nodesToDelete_nil r s h) ?_
    intro t ht
    simp only [Outcome.state, AudioContext.handleAutomaticSources]
    rw [updateAutomaticPullNodes_nodesToDelete]
    exact ht

theorem stop_nodesToDelete_nil (g : ContextGraphLock) (s : AudioContext)
    (h : s.m_nodesToDelete = []) : (AudioContext.stop g s).state.m_nodesToDelete = [] := by
  unfold AudioContext.stop
  split
  · exact h
  · simp only
    refine andThen_state_of (fun t => t.m_nodesToDelete = []) _ _ ?_ ?_
    · unfold AudioContext.uninitialize
      split
      · rfl
      · split <;> rfl
    · intro t _
      simp [Outcome.state, clear_eq]

theorem reachable_nodesToDelete_nil (s : AudioContext) (h : Reachable s) :
    s.m_nodesToDelete = [] := by
  induction h with
  | fresh offline => rfl
  | setDestinationNode s d _ ih => exact ih
  | lazyInitialize s _ ih =>
    unfold AudioContext.lazyInitialize
    split
    · split
      · exact ih
      · simp only [Outcome.state]
        split
        · simp only [callExternal]
          split <;> exact ih
        · exact ih
    · exact ih
  | submit s q _ ih => cases q <;> exact ih
  | referenceSourceNode g s n _ ih => exact ih
  | dereferenceSourceNode g s n _ ih =>
    exact (dereferenceSourceNode_nodesToDelete g s n).trans ih
  | notifyNodeFinishedProcessing r s n _ ih =>
    unfold AudioContext.notifyNodeFinishedProcessing
    split
    · exact ih
    · split <;> exact ih
  | derefFinishedSourceNodes g s _ ih => exact derefFinishedSourceNodes_nodesToDelete_nil g s ih
  | markForDeletion r s n _ ih =>
    unfold AudioContext.markForDeletion
    split
    · exact ih
    · split <;> exact ih
  | scheduleNodeDeletion r s _ ih => exact scheduleNodeDeletion_nodesToDelete_nil r s ih
  | deleteMarkedNodes s _ _ => rfl
  | update g s _ ih => exact update_nodesToDelete_nil g s ih
  | handlePreRenderTasks r s _ ih =>
    unfold AudioContext.handlePreRenderTasks
    split
    · exact ih
    · simp only [Outcome.state]
      rw [updateAutomaticPullNodes_nodesToDelete]
      exact ih
  | handlePostRenderTasks r s _ ih => exact handlePostRenderTasks_nodesToDelete_nil r s ih
  | uninitialize g s _ ih =>
    unfold AudioContext.uninitialize
    split
    · exact ih
    · split <;> exact ih
  | stop g s _ ih => exact stop_nodesToDelete_nil g s ih
  | clear s _ _ => simp [clear_eq]

/-- C11: in every state reachable from a freshly constructed context by any sequence of the
`AudioContext` operations, no node is at once in the Reference Set and in the Deletion Set;
indeed the Deletion Set is empty whenever an operation has returned. -/
theorem reachable_referenced_not_in_deletion_set (s : AudioContext) (h : Reachable s) :
    (∀ n, ¬ (n ∈ s.m_referencedNodes ∧ n ∈ s.m_nodesToDelete)) ∧ s.m_nodesToDelete = [] := by
  have hnil := reachable_nodesToDelete_nil s h
  refine ⟨?_, hnil⟩
  intro n hn
  rw [hnil] at hn
  exact absurd hn.2 (List.not_mem_nil n)

/-- C11 (witness): the state after node 7 was referenced, marked and scheduled for deletion
in an initialized context. -/
theorem reachable_referenced_not_in_deletion_set_witness :
    Reachable (AudioContext.scheduleNodeDeletion ⟨true⟩ sevenMarkedForDeletion).state ∧
    7 ∈ (AudioContext.scheduleNodeDeletion ⟨true⟩
      sevenMarkedForDeletion).state.m_referencedNodes ∧
    ((∀ n, ¬ (n ∈ (AudioContext.scheduleNodeDeletion ⟨true⟩
        sevenMarkedForDeletion).state.m_referencedNodes ∧
      n ∈ (AudioContext.scheduleNodeDeletion ⟨true⟩
        sevenMarkedForDeletion).state.m_nodesToDelete)) ∧
      (AudioContext.scheduleNodeDeletion ⟨true⟩ sevenMarkedForDeletion).state.m_nodesToDelete
        = []) :=
  ⟨Reachable.scheduleNodeDeletion _ _ (Reachable.markForDeletion _ _ _
      (Reachable.referenceSourceNode _ _ _ (Reachable.lazyInitialize _
        (Reachable.setDestinationNode _ _ (Reachable.fresh false))))),
    by decide,
    reachable_referenced_not_in_deletion_set _
      (Reachable.scheduleNodeDeletion _ _ (Reachable.markForDeletion _ _ _
        (Reachable.referenceSourceNode _ _ _ (Reachable.lazyInitialize _
          (Reachable.setDestinationNode _ _ (Reachable.fresh false))))))⟩

/-- C12 (code at the failing input): node 7 is marked for deletion in an initialized
context. `handlePostRenderTasks` completes, and afterwards 7 is held neither in the
marked-for-deletion list nor in the Deletion Set: `scheduleNodeDeletion` moved it and
called `deleteMarkedNodes` in the same render-thread call. -/
theorem handlePostRenderTasks_deletes_in_render_call :
    sevenMarkedForDeletion.m_isInitialized = true ∧
    sevenMarkedForDeletion.m_nodesMarkedForDeletion = [7] ∧
    (AudioContext.handlePostRenderTasks ⟨true⟩ sevenMarkedForDeletion).fault? = none ∧
    7 ∉ (AudioContext.handlePostRenderTasks ⟨true⟩
      sevenMarkedForDeletion).state.m_nodesMarkedForDeletion ∧
    7 ∉ (AudioContext.handlePostRenderTasks ⟨true⟩
      sevenMarkedForDeletion).state.m_nodesToDelete ∧
    (AudioContext.scheduleNodeDeletion ⟨true⟩ sevenMarkedForDeletion).state.m_nodesToDelete
      = [] := by
  decide

theorem addAutomaticPullNode_inStep (s : AudioContext) (n : Node)
    (h : pullSnapshotInStep s) : pullSnapshotInStep (AudioContext.addAutomaticPullNode s n) := by
  unfold AudioContext.addAutomaticPullNode
  split
  · rename_i hn
    refine ⟨?_, ?_⟩
    · intro hd; simp at hd
    · have hp := List.perm_orderedInsert (· ≤ ·) n s.m_automaticPullNodes
      exact hp.nodup_iff.mpr (List.nodup_cons.mpr ⟨hn, h.2⟩)
  · exact h

theorem removeAutomaticPullNode_inStep (s : AudioContext) (n : Node)
    (h : pullSnapshotInStep s) :
    pullSnapshotInStep (AudioContext.removeAutomaticPullNode s n) := by
  unfold AudioContext.removeAutomaticPullNode
  split
  · refine ⟨?_, ?_⟩
    · intro hd; simp at hd
    · exact h.2.erase n
  · exact h

theorem updateAutomaticPullNodes_inStep (s : AudioContext) (h : pullSnapshotInStep s) :
    pullSnapshotInStep (AudioContext.updateAutomaticPullNodes s) := by
  unfold AudioContext.updateAutomaticPullNodes
  split
  · exact ⟨fun _ => rfl, h.2⟩
  · exact h

theorem updateAutomaticPullNodes_rendering (s : AudioContext) (h : pullSnapshotInStep s) :
    (AudioContext.updateAutomaticPullNodes s).m_renderingAutomaticPullNodes =
        s.m_automaticPullNodes ∧
      (AudioContext.updateAutomaticPullNodes s).m_automaticPullNodes =
        s.m_automaticPullNodes := by
  unfold AudioContext.updateAutomaticPullNodes
  split
  · exact ⟨rfl, rfl⟩
  · rename_i hd
    refine ⟨h.1 ?_, rfl⟩
    simpa using hd

theorem handlePreRenderTasks_inStep (r : ContextRenderLock) (s : AudioContext)
    (h : pullSnapshotInStep s) :
    pullSnapshotInStep (AudioContext.handlePreRenderTasks r s).state := by
  unfold AudioContext.handlePreRenderTasks
  split
  · exact h
  · exact updateAutomaticPullNodes_inStep _ h

theorem scheduleNodeDeletion_inStep (r : ContextRenderLock) (s : AudioContext)
    (h : pullSnapshotInStep s) :
    pullSnapshotInStep (AudioContext.scheduleNodeDeletion r s).state := by
  unfold AudioContext.scheduleNodeDeletion
  split
  · exact h
  · split
    · exact h
    · exact h

theorem handlePostRenderTasks_inStep (r : ContextRenderLock) (s : AudioContext)
    (h : pullSnapshotInStep s) :
    pullSnapshotInStep (AudioContext.handlePostRenderTasks r s).state := by
  unfold AudioContext.handlePostRenderTasks
  split
  · exact h
  · refine andThen_state_of pullSnapshotInStep _ _ (scheduleNodeDeletion_inStep r s h) ?_
    intro t ht
    have h1 : pullSnapshotInStep
        (callExternal t ExternalCall.handleDirtyAudioSummingJunctions) := ht
    exact updateAutomaticPullNodes_inStep _ h1

theorem pullReachable_inStep (s : AudioContext) (h : PullReachable s) :
    pullSnapshotInStep s := by
  induction h with
  | fresh offline => exact ⟨fun _ => rfl, List.nodup_nil⟩
  | addAutomaticPullNode s n _ ih => exact addAutomaticPullNode_inStep s n ih
  | removeAutomaticPullNode s n _ ih => exact removeAutomaticPullNode_inStep s n ih
  | updateAutomaticPullNodes s _ ih => exact updateAutomaticPullNodes_inStep s ih
  | handlePreRenderTasks r s _ ih => exact handlePreRenderTasks_inStep r s ih
  | handlePostRenderTasks r s _ ih => exact handlePostRenderTasks_inStep r s ih

theorem handlePreRenderTasks_rendering (r : ContextRenderLock) (s : AudioContext)
    (hr : r.context = true) (h : pullSnapshotInStep s) :
    (AudioContext.handlePreRenderTasks r s).fault? = none ∧
    (AudioContext.handlePreRenderTasks r s).state.m_renderingAutomaticPullNodes =
      s.m_automaticPullNodes ∧
    (AudioContext.handlePreRenderTasks r s).state.m_automaticPullNodes =
      s.m_automaticPullNodes := by
  have h1 : pullSnapshotInStep
      (callExternal s ExternalCall.handleDirtyAudioSummingJunctions) := h
  have h2 := updateAutomaticPullNodes_rendering _ h1
  have e : AudioContext.handlePreRenderTasks r s = Outcome.done
      (AudioContext.updateAutomaticPullNodes
        (callExternal s ExternalCall.handleDirtyAudioSummingJunctions)) := by
    simp [AudioContext.handlePreRenderTasks, hr]
  rw [e]
  exact ⟨rfl, h2.1, h2.2⟩

theorem processAutomaticPullNodes_calls (l : List Node) (s : AudioContext) :
    (l.foldl (fun t n => callExternal t (ExternalCall.processIfNecessary n)) s).externalCalls
      = s.externalCalls ++ l.map ExternalCall.processIfNecessary := by
  induction l generalizing s with
  | nil => simp
  | cons n rest ih =>
    simp only [List.foldl_cons, List.map_cons]
    rw [ih]
    simp [callExternal]

/-- C14: in every state reachable by `addAutomaticPullNode`, `removeAutomaticPullNode`,
`updateAutomaticPullNodes` and the two render-phase hooks, `handlePreRenderTasks` (given a
valid render lock) completes, and right after it `processAutomaticPullNodes` calls
`processIfNecessary` on exactly the members of the Automatic Pull Set, each once and on no
other node. In particular a node just added is processed and a node just removed is not. -/
theorem automatic_pull_nodes_processed (s : AudioContext) (h : PullReachable s)
    (r : ContextRenderLock) (hr : r.context = true) (framesToProcess : Nat) (N : Node) :
    (AudioContext.handlePreRenderTasks r s).fault? = none ∧
    (AudioContext.processAutomaticPullNodes r (AudioContext.handlePreRenderTasks r s).state
        framesToProcess).externalCalls =
      (AudioContext.handlePreRenderTasks r s).state.externalCalls ++
        (AudioContext.handlePreRenderTasks r s).state.m_automaticPullNodes.map
          ExternalCall.processIfNecessary ∧
    (AudioContext.handlePreRenderTasks r s).state.m_automaticPullNodes =
      s.m_automaticPullNodes ∧
    (∀ n, (AudioContext.handlePreRenderTasks r s).state.m_renderingAutomaticPullNodes.count n =
      if n ∈ s.m_automaticPullNodes then 1 else 0) ∧
    N ∈ (AudioContext.handlePreRenderTasks r
      (AudioContext.addAutomaticPullNode s N)).state.m_renderingAutomaticPullNodes ∧
    N ∉ (AudioContext.handlePreRenderTasks r
      (AudioContext.removeAutomaticPullNode s N)).state.m_renderingAutomaticPullNodes := by
  have hs := pullReachable_inStep s h
  obtain ⟨h1, h2, h3⟩ := handlePreRenderTasks_rendering r s hr hs
  refine ⟨h1, ?_, h3, ?_, ?_, ?_⟩
  · unfold AudioContext.processAutomaticPullNodes
    rw [processAutomaticPullNodes_calls, h2, h3]
  · intro n
    rw [h2]
    by_cases hn : n ∈ s.m_automaticPullNodes
    · rw [if_pos hn]; exact List.count_eq_one_of_mem hs.2 hn
    · rw [if_neg hn]; exact List.count_eq_zero_of_not_mem hn
  · rw [(handlePreRenderTasks_rendering r _ hr (addAutomaticPullNode_inStep s N hs)).2.1]
    unfold AudioContext.addAutomaticPullNode
    split
    · simp
    · rename_i hn
      simpa using hn
  · rw [(handlePreRenderTasks_rendering r _ hr (removeAutomaticPullNode_inStep s N hs)).2.1]
    unfold AudioContext.removeAutomaticPullNode
    split
    · exact hs.2.not_mem_erase
    · rename_i hn
      exact hn

/-- C14 (witness): after adding 5 and 3 and removing 5, the quantum processes node 3 once
and node 5 not at all. -/
theorem automatic_pull_nodes_processed_witness :
    PullReachable onlyThreePulled ∧ (⟨true⟩ : ContextRenderLock).context = true ∧
    (AudioContext.handlePreRenderTasks ⟨true⟩ onlyThreePulled).fault? = none ∧
    (AudioContext.processAutomaticPullNodes ⟨true⟩
        (AudioContext.handlePreRenderTasks ⟨true⟩ onlyThreePulled).state 128).externalCalls =
      (AudioContext.handlePreRenderTasks ⟨true⟩ onlyThreePulled).state.externalCalls ++
        (AudioContext.handlePreRenderTasks ⟨true⟩ onlyThreePulled).state.m_automaticPullNodes.map
          ExternalCall.processIfNecessary ∧
    (AudioContext.handlePreRenderTasks ⟨true⟩ onlyThreePulled).state.m_automaticPullNodes = [3] ∧
    5 ∉ (AudioContext.handlePreRenderTasks ⟨true⟩
      (AudioContext.removeAutomaticPullNode onlyThreePulled 5)).state.m_renderingAutomaticPullNodes :=
  ⟨PullReachable.removeAutomaticPullNode _ _ (PullReachable.addAutomaticPullNode _ _
      (PullReachable.addAutomaticPullNode _ _ (PullReachable.fresh false))),
    rfl,
    (automatic_pull_nodes_processed onlyThreePulled
      (PullReachable.removeAutomaticPullNode _ _ (PullReachable.addAutomaticPullNode _ _
        (PullReachable.addAutomaticPullNode _ _ (PullReachable.fresh false))))
      ⟨true⟩ rfl 128 5).1,
    (automatic_pull_nodes_processed onlyThreePulled
      (PullReachable.removeAutomaticPullNode _ _ (PullReachable.addAutomaticPullNode _ _
        (PullReachable.addAutomaticPullNode _ _ (PullReachable.fresh false))))
      ⟨true⟩ rfl 128 5).2.1,
    by decide,
    (automatic_pull_nodes_processed onlyThreePulled
      (PullReachable.removeAutomaticPullNode _ _ (PullReachable.addAutomaticPullNode _ _
        (PullReachable.addAutomaticPullNode _ _ (PullReachable.fresh false))))
      ⟨true⟩ rfl 128 5).2.2.2.2.2⟩

/-- C15: `addAutomaticPullNode` and `removeAutomaticPullNode` are idempotent: adding `N`
twice gives the state of adding it once, removing it twice gives the state of removing it
once; adding a node already in the Automatic Pull Set and removing a node not in it leave
the whole state unchanged. Both are total: no error can be raised. -/
theorem automatic_pull_set_idempotent (s : AudioContext) (N : Node)
    (hset : s.m_automaticPullNodes.Nodup) :
    AudioContext.addAutomaticPullNode (AudioContext.addAutomaticPullNode s N) N =
      AudioContext.addAutomaticPullNode s N ∧
    AudioContext.removeAutomaticPullNode (AudioContext.removeAutomaticPullNode s N) N =
      AudioContext.removeAutomaticPullNode s N ∧
    (N ∈ s.m_automaticPullNodes → AudioContext.addAutomaticPullNode s N = s) ∧
    (N ∉ s.m_automaticPullNodes → AudioContext.removeAutomaticPullNode s N = s) := by
  refine ⟨?_, ?_, ?_, ?_⟩
  · by_cases hN : N ∈ s.m_automaticPullNodes
    · simp [AudioContext.addAutomaticPullNode, hN]
    · have h1 : AudioContext.addAutomaticPullNode s N =
          { s with m_automaticPullNodes := s.m_automaticPullNodes.orderedInsert (· ≤ ·) N,
                   m_automaticPullNodesNeedUpdating := true } := by
        simp [AudioContext.addAutomaticPullNode, hN]
      rw [h1]
      simp [AudioContext.addAutomaticPullNode]
  · by_cases hN : N ∈ s.m_automaticPullNodes
    · have h1 : AudioContext.removeAutomaticPullNode s N =
          { s with m_automaticPullNodes := s.m_automaticPullNodes.erase N,
                   m_automaticPullNodesNeedUpdating := true } := by
        simp [AudioContext.removeAutomaticPullNode, hN]
      rw [h1]
      have h2 : N ∉ s.m_automaticPullNodes.erase N := hset.not_mem_erase
      simp [AudioContext.removeAutomaticPullNode, h2]
    · simp [AudioContext.removeAutomaticPullNode, hN]
  · intro hN
    simp [AudioContext.addAutomaticPullNode, hN]
  · intro hN
    simp [AudioContext.removeAutomaticPullNode, hN]

/-- C15 (witness): node 3 is in the set of `onlyThreePulled`, node 5 is not. -/
theorem automatic_pull_set_idempotent_witness :
    onlyThreePulled.m_automaticPullNodes.Nodup ∧
    3 ∈ onlyThreePulled.m_automaticPullNodes ∧ 5 ∉ onlyThreePulled.m_automaticPullNodes ∧
    AudioContext.addAutomaticPullNode (AudioContext.addAutomaticPullNode onlyThreePulled 5) 5 =
      AudioContext.addAutomaticPullNode onlyThreePulled 5 ∧
    AudioContext.removeAutomaticPullNode (AudioContext.removeAutomaticPullNode onlyThreePulled 3) 3
      = AudioContext.removeAutomaticPullNode onlyThreePulled 3 ∧
    AudioContext.addAutomaticPullNode onlyThreePulled 3 = onlyThreePulled ∧
    AudioContext.removeAutomaticPullNode onlyThreePulled 5 = onlyThreePulled :=
  ⟨by decide, by decide, by decide,
    (automatic_pull_set_idempotent onlyThreePulled 5 (by decide)).1,
    (automatic_pull_set_idempotent onlyThreePulled 3 (by decide)).2.1,
    (automatic_pull_set_idempotent onlyThreePulled 3 (by decide)).2.2.1 (by decide),
    (automatic_pull_set_idempotent onlyThreePulled 5 (by decide)).2.2.2 (by decide)⟩

/-- C16 (amended): for a context on which stop has not been scheduled, `stop` completes
with the marked-for-deletion list and the Deletion Set empty, the context not initialized
and stop scheduled, and a second `stop` changes nothing. The Reference Set is emptied when
the context was initialized (with a destination node); when it was not initialized the
Reference Set is left exactly as it was. -/
theorem stop_flushes (g : ContextGraphLock) (s : AudioContext)
    (hs : s.m_isStopScheduled = false) :
    (s.m_isInitialized = false →
      ∃ s1, AudioContext.stop g s = Outcome.done s1 ∧
        s1.m_referencedNodes = s.m_referencedNodes ∧
        s1.m_nodesMarkedForDeletion = [] ∧ s1.m_nodesToDelete = [] ∧
        s1.m_isInitialized = false ∧ s1.m_isStopScheduled = true ∧
        AudioContext.stop g s1 = Outcome.done s1) ∧
    (∀ d, s.m_isInitialized = true → s.m_destinationNode = some d →
      ∃ s1, AudioContext.stop g s = Outcome.done s1 ∧
        s1.m_referencedNodes = [] ∧
        s1.m_nodesMarkedForDeletion = [] ∧ s1.m_nodesToDelete = [] ∧
        s1.m_isInitialized = false ∧ s1.m_isStopScheduled = true ∧
        AudioContext.stop g s1 = Outcome.done s1) := by
  constructor
  · intro hi
    simp [AudioContext.stop, AudioContext.uninitialize, AudioContext.deleteMarkedNodes,
      Outcome.andThen, clear_eq, hs, hi]
  · intro d hi hd
    simp [AudioContext.stop, AudioContext.uninitialize, AudioContext.deleteMarkedNodes,
      Outcome.andThen, clear_eq, callExternal, hs, hi, hd]

/-- C16 (witness): stopping a context that was never initialized, and one that was. -/
theorem stop_flushes_witness :
    onlySevenReferenced.m_isStopScheduled = false ∧
    onlySevenReferenced.m_isInitialized = false ∧
    (∃ s1, AudioContext.stop ⟨true⟩ onlySevenReferenced = Outcome.done s1 ∧
      s1.m_referencedNodes = onlySevenReferenced.m_referencedNodes ∧
      s1.m_nodesMarkedForDeletion = [] ∧ s1.m_nodesToDelete = [] ∧
      s1.m_isInitialized = false ∧ s1.m_isStopScheduled = true ∧
      AudioContext.stop ⟨true⟩ s1 = Outcome.done s1) ∧
    sevenMarkedForDeletion.m_isStopScheduled = false ∧
    sevenMarkedForDeletion.m_isInitialized = true ∧
    sevenMarkedForDeletion.m_destinationNode = some 0 ∧
    (∃ s1, AudioContext.stop ⟨true⟩ sevenMarkedForDeletion = Outcome.done s1 ∧
      s1.m_referencedNodes = [] ∧
      s1.m_nodesMarkedForDeletion = [] ∧ s1.m_nodesToDelete = [] ∧
      s1.m_isInitialized = false ∧ s1.m_isStopScheduled = true ∧
      AudioContext.stop ⟨true⟩ s1 = Outcome.done s1) :=
  ⟨rfl, rfl, (stop_flushes ⟨true⟩ onlySevenReferenced rfl).1 rfl,
    rfl, rfl, rfl, (stop_flushes ⟨true⟩ sevenMarkedForDeletion rfl).2 0 rfl rfl⟩

/-- C16 (counterexample): node 7 is referenced in a context that was never initialized and
on which stop was not scheduled. `stop` completes and node 7 is still in the Reference
Set, so the Reference Set is not empty. -/
theorem stop_keeps_references_when_not_initialized :
    onlySevenReferenced.m_isStopScheduled = false ∧
    onlySevenReferenced.m_isInitialized = false ∧
    (AudioContext.stop ⟨true⟩ onlySevenReferenced).fault? = none ∧
    (AudioContext.stop ⟨true⟩ onlySevenReferenced).state.m_referencedNodes = [7] ∧
    (AudioContext.stop ⟨true⟩ onlySevenReferenced).state.m_referencedNodes ≠ [] := by
  decide

theorem specRemoveFirstMatch_eq_erase (l : List Node) (n : Node) :
    specRemoveFirstMatch l n = l.erase n := by
  induction l with
  | nil => rfl
  | cons x rest ih =>
    by_cases h : x = n
    · simp [specRemoveFirstMatch, h]
    · simp [specRemoveFirstMatch, h, List.erase_cons, ih]

theorem specDerefFinished_eq (finished referenced : List Node) :
    specDerefFinished referenced finished = finished.foldl List.erase referenced := by
  unfold specDerefFinished
  induction finished generalizing referenced with
  | nil => rfl
  | cons n rest ih =>
    simp only [List.foldl_cons]
    rw [specRemoveFirstMatch_eq_erase]
    exact ih _

theorem foldl_erase_sublist (finished referenced : List Node) :
    (finished.foldl List.erase referenced).Sublist referenced := by
  induction finished generalizing referenced with
  | nil => exact List.Sublist.refl _
  | cons n rest ih =>
    simp only [List.foldl_cons]
    exact (ih _).trans (List.erase_sublist n referenced)

theorem derefFinishedLoop_eq (g : ContextGraphLock) (hg : g.context = true)
    (l : List Node) (s : AudioContext) :
    derefFinishedLoop g s l =
      Outcome.done { s with m_referencedNodes := l.foldl List.erase s.m_referencedNodes } := by
  induction l generalizing s with
  | nil => rfl
  | cons n rest ih =>
    simp only [derefFinishedLoop, AudioContext.dereferenceSourceNode, hg, Bool.true_eq_false,
      if_false, Outcome.andThen, List.foldl_cons]
    rw [ih]

/-- C17: with a valid graph lock `derefFinishedSourceNodes` completes; afterwards the
Finished Set is empty and the Reference Set is the previous one with, for each entry of
the previous Finished Set taken in order, the first matching entry removed (no match: no
change). The entries that remain keep their relative order. -/
theorem derefFinishedSourceNodes_contract (g : ContextGraphLock) (s : AudioContext)
    (hg : g.context = true) :
    ∃ s1, AudioContext.derefFinishedSourceNodes g s = Outcome.done s1 ∧
      s1.m_finishedNodes = [] ∧
      s1.m_referencedNodes = specDerefFinished s.m_referencedNodes s.m_finishedNodes ∧
      s1.m_referencedNodes.Sublist s.m_referencedNodes := by
  refine ⟨{ s with m_referencedNodes := s.m_finishedNodes.foldl List.erase s.m_referencedNodes,
                   m_finishedNodes := [] }, ?_, rfl, ?_, ?_⟩
  · simp [AudioContext.derefFinishedSourceNodes, hg, derefFinishedLoop_eq g hg,
      Outcome.andThen]
  · exact (specDerefFinished_eq _ _).symm
  · exact foldl_erase_sublist _ _

/-- C17 (witness): the Reference Set `[1, 3, 2, 3]` with Finished Set `[3, 3]` becomes
`[1, 2]`. -/
theorem derefFinishedSourceNodes_contract_witness :
    (⟨true⟩ : ContextGraphLock).context = true ∧
    threeFinishedTwice.m_referencedNodes = [1, 3, 2, 3] ∧
    threeFinishedTwice.m_finishedNodes = [3, 3] ∧
    specDerefFinished threeFinishedTwice.m_referencedNodes threeFinishedTwice.m_finishedNodes
      = [1, 2] ∧
    ∃ s1, AudioContext.derefFinishedSourceNodes ⟨true⟩ threeFinishedTwice = Outcome.done s1 ∧
      s1.m_finishedNodes = [] ∧
      s1.m_referencedNodes =
        specDerefFinished threeFinishedTwice.m_referencedNodes
          threeFinishedTwice.m_finishedNodes ∧
      s1.m_referencedNodes.Sublist threeFinishedTwice.m_referencedNodes :=
  ⟨rfl, by decide, by decide, by decide,
    derefFinishedSourceNodes_contract ⟨true⟩ threeFinishedTwice rfl⟩

theorem lazyInitialize_notBoth (s : AudioContext)
    (h : ¬ (s.m_isAudioThreadFinished = true ∧ s.m_isInitialized = true)) :
    ¬ (( AudioContext.lazyInitialize s).state.m_isAudioThreadFinished = true ∧
      ( AudioContext.lazyInitialize s).state.m_isInitialized = true) := by
  unfold AudioContext.lazyInitialize
  split
  · split
    · exact h
    · rename_i hf
      simp only [Outcome.state]
      intro hboth
      apply hf
      have h1 := hboth.1
      revert h1
      cases s.m_destinationNode with
      | none => exact id
      | some d =>
        simp only [callExternal]
        split <;> exact id
  · exact h

theorem uninitialize_notBoth (g : ContextGraphLock) (s : AudioContext)
    (h : ¬ (s.m_isAudioThreadFinished = true ∧ s.m_isInitialized = true)) :
    ¬ (( AudioContext.uninitialize g s).state.m_isAudioThreadFinished = true ∧
      ( AudioContext.uninitialize g s).state.m_isInitialized = true) := by
  unfold AudioContext.uninitialize
  split
  · exact h
  · split
    · exact h
    · simp [Outcome.state]

theorem stop_notBoth (g : ContextGraphLock) (s : AudioContext)
    (h : ¬ (s.m_isAudioThreadFinished = true ∧ s.m_isInitialized = true)) :
    ¬ ((AudioContext.stop g s).state.m_isAudioThreadFinished = true ∧
      (AudioContext.stop g s).state.m_isInitialized = true) := by
  unfold AudioContext.stop
  split
  · exact h
  · simp only
    refine andThen_state_of
      (fun t => ¬ (t.m_isAudioThreadFinished = true ∧ t.m_isInitialized = true)) _ _ ?_ ?_
    · exact uninitialize_notBoth g _ h
    · intro t ht
      simpa [Outcome.state, clear_eq] using ht

theorem initReachable_notBoth (s : AudioContext) (h : InitReachable s) :
    ¬ (s.m_isAudioThreadFinished = true ∧ s.m_isInitialized = true) := by
  induction h with
  | fresh offline => simp [AudioContext.fresh]
  | setDestinationNode s d _ ih => exact ih
  | lazyInitialize s _ ih => exact lazyInitialize_notBoth s ih
  | uninitialize g s _ ih => exact uninitialize_notBoth g s ih
  | stop g s _ ih => exact stop_notBoth g s ih

theorem uninitialize_keeps_finished (g : ContextGraphLock) (s : AudioContext)
    (hf : s.m_isAudioThreadFinished = true) :
    ( AudioContext.uninitialize g s).state.m_isAudioThreadFinished = true := by
  unfold AudioContext.uninitialize
  split
  · exact hf
  · split
    · exact hf
    · rfl

/-- C18: in every state reachable by `setDestinationNode`, `lazyInitialize`, `uninitialize`
and `stop`, `m_isAudioThreadFinished` and `m_isInitialized` are never both true. When
`uninitialize` runs to its end on an initialized context it sets `m_isAudioThreadFinished`;
from then on the flag stays set under every one of these operations, and `lazyInitialize`
leaves the whole state as it is: `isInitialized()` stays false and no call reaches the
destination node. -/
theorem never_initialized_again (s : AudioContext) (h : InitReachable s)
    (g : ContextGraphLock) :
    ¬ (s.m_isAudioThreadFinished = true ∧ s.m_isInitialized = true) ∧
    (∀ t, s.m_isInitialized = true → AudioContext.uninitialize g s = Outcome.done t →
      t.m_isAudioThreadFinished = true ∧ t.m_isInitialized = false) ∧
    (s.m_isAudioThreadFinished = true →
      ( AudioContext.lazyInitialize s).state = s ∧
      AudioContext.isInitialized ( AudioContext.lazyInitialize s).state = false ∧
      ( AudioContext.lazyInitialize s).state.externalCalls = s.externalCalls ∧
      ( AudioContext.lazyInitialize s).state.m_isAudioThreadFinished = true ∧
      ( AudioContext.uninitialize g s).state.m_isAudioThreadFinished = true ∧
      (AudioContext.stop g s).state.m_isAudioThreadFinished = true) := by
  have hinv := initReachable_notBoth s h
  refine ⟨hinv, ?_, ?_⟩
  · intro t hi hu
    unfold AudioContext.uninitialize at hu
    rw [if_neg (by simp [hi])] at hu
    cases hd : s.m_destinationNode with
    | none => rw [hd] at hu; simp at hu
    | some d =>
      rw [hd] at hu
      simp only [Outcome.done.injEq] at hu
      subst hu
      exact ⟨rfl, rfl⟩
  · intro hf
    have hi : s.m_isInitialized = false := by
      cases hb : s.m_isInitialized with
      | false => rfl
      | true => exact absurd ⟨hf, hb⟩ hinv
    have hl : ( AudioContext.lazyInitialize s).state = s := by
      simp [AudioContext.lazyInitialize, hi, hf, Outcome.state]
    rw [hl]
    refine ⟨rfl, hi, rfl, hf, uninitialize_keeps_finished g s hf, ?_⟩
    unfold AudioContext.stop
    split
    · exact hf
    · simp only
      refine andThen_state_of (fun t => t.m_isAudioThreadFinished = true) _ _ ?_ ?_
      · exact uninitialize_keeps_finished g _ hf
      · intro t ht
        simpa [Outcome.state, clear_eq] using ht

/-- C18 (witness): a context that was initialized and uninitialized; a later
`lazyInitialize` changes nothing. -/
theorem never_initialized_again_witness :
    InitReachable initializedThenUninitialized ∧
    initializedThenUninitialized.m_isAudioThreadFinished = true ∧
    initializedThenUninitialized.externalCalls =
      [ExternalCall.destinationInitialize 0, ExternalCall.destinationStartRendering 0,
        ExternalCall.destinationUninitialize 0] ∧
    ¬ (initializedThenUninitialized.m_isAudioThreadFinished = true ∧
      initializedThenUninitialized.m_isInitialized = true) ∧
    ( AudioContext.lazyInitialize initializedThenUninitialized).state =
      initializedThenUninitialized ∧
    AudioContext.isInitialized
      ( AudioContext.lazyInitialize initializedThenUninitialized).state = false :=
  ⟨InitReachable.uninitialize _ _ (InitReachable.lazyInitialize _
      (InitReachable.setDestinationNode _ _ (InitReachable.fresh false))),
    rfl, by decide,
    (never_initialized_again initializedThenUninitialized
      (InitReachable.uninitialize _ _ (InitReachable.lazyInitialize _
        (InitReachable.setDestinationNode _ _ (InitReachable.fresh false)))) ⟨true⟩).1,
    ((never_initialized_again initializedThenUninitialized
      (InitReachable.uninitialize _ _ (InitReachable.lazyInitialize _
        (InitReachable.setDestinationNode _ _ (InitReachable.fresh false)))) ⟨true⟩).2.2 rfl).1,
    ((never_initialized_again initializedThenUninitialized
      (InitReachable.uninitialize _ _ (InitReachable.lazyInitialize _
        (InitReachable.setDestinationNode _ _ (InitReachable.fresh false)))) ⟨true⟩).2.2
          rfl).2.1⟩

/-- C19 (code at the failing input): the held sources 1 and 2 have both finished. After
`handleAutomaticSources` source 2 is still in the list although its `hasFinished()` is
true: erasing source 1 moved the iterator onto source 2 and the loop increment stepped
over it. -/
theorem handleAutomaticSources_skips_after_erase :
    twoFinishedSources.automaticSources = [1, 2] ∧
    twoFinishedSources.hasFinished 1 = true ∧ twoFinishedSources.hasFinished 2 = true ∧
    (AudioContext.handleAutomaticSources twoFinishedSources).automaticSources = [2] ∧
    (AudioContext.handleAutomaticSources twoFinishedSources).hasFinished 2 = true ∧
    2 ∈ (AudioContext.handleAutomaticSources twoFinishedSources).automaticSources := by
  decide

end LabSound
